import Mathlib

/-!
Verification of the partitioned hash-join probe/build inner loop of
`be/src/exec/partitioned-hash-join-node-ir.cc` (Impala).

The embedding models `PartitionedHashJoinNode::ProcessProbeBatch<JoinOp>` and
`PartitionedHashJoinNode::ProcessBuildBatch` over abstract probe-row and
build-row types `α` and `β`.  External collaborators that live outside the
provided source slice (the hash-table iterator, `AppendRow`, `RowBatch`,
the conjunct evaluators) are modelled from the spec as pure interfaces.
-/

namespace PHJ

/-- The join kinds of `TJoinOp` dispatched by
`PartitionedHashJoinNode::ProcessProbeBatch(const TJoinOp::type, ...)`. -/
inductive JoinOp where
  | innerJoin
  | leftOuterJoin
  | rightOuterJoin
  | fullOuterJoin
  | leftSemiJoin
  | leftAntiJoin
deriving DecidableEq, Repr

/-- Result status of a batch call: `ok` models `Status::OK`, `error` models
returning the stored non-OK `status_` (or `Status("Unknown join type")`). -/
inductive Status where
  | ok
  | error
deriving DecidableEq, Repr

/-- Modelled from the spec: the append-only spill row buffer
(`BufferedTupleStream`, not under `src/`).  §6: "append-only byte-buffer
abstraction with `append(row) -> bool` (false/failure signals out-of-space or
I/O error)", preserving row order.  `limit = some n` models backing storage
that can hold at most `n` rows; `limit = none` models storage that always
grows. -/
structure Buffer (ρ : Type) where
  rows : List ρ
  limit : Option Nat

/-- Modelled from the spec: `PartitionedHashJoinNode::AppendRow` (declared in
`partitioned-hash-join-node.h`, not under `src/`): appends the row to the
buffer, returning `none` exactly when the backing storage cannot grow. -/
def AppendRow {ρ : Type} (b : Buffer ρ) (r : ρ) : Option (Buffer ρ) :=
  match b.limit with
  | none => some { b with rows := b.rows ++ [r] }
  | some n => if b.rows.length < n then some { b with rows := b.rows ++ [r] } else none

/-- Modelled from the spec (§3 `Partition`; the `Partition` class lives in
`partitioned-hash-join-node.h`, not under `src/`): exactly one of
`is_closed()` (build side was empty), `is_spilled()` (probe rows are
appended to a spill buffer) or a resident hash table holds.  A resident
partition's table is modelled as the map from a hash value to the
duplicate-chain of build rows returned by `hash_tbl()->Find(ht_ctx)` and
walked by `HashTable::Iterator::Next<true>`. -/
inductive Partition (α β : Type) where
  | closed
  | spilled (probe_rows : Buffer α)
  | resident (hash_tbl : Nat → List β)

/-- The pure external collaborators of `ProcessProbeBatch` (§6): the two
conjunct evaluators (distinctly named in the source so codegen can replace
one without the other) and the probe-side hash evaluator.
`evalAndHashProbe r = none` models `HashTableCtx::EvalAndHashProbe`
returning false (a key is null: the row can never match). The output row
handed to the conjunct evaluators is the probe row paired with the matched
build row, or with `none` after `CreateOutputRow(out_row, probe, NULL)`. -/
structure JoinEnv (α β : Type) where
  EvalOtherJoinConjuncts : α → β → Bool
  EvalConjuncts : α → Option β → Bool
  evalAndHashProbe : α → Option Nat

/-- Modelled from the spec: `NUM_PARTITIONING_BITS` is defined in
`partitioned-hash-join-node.h` (not under `src/`); its value there is 4.
The routing formula `hash >> (32 - NUM_PARTITIONING_BITS)` is from the
source (lines 126 and 182). -/
def NUM_PARTITIONING_BITS : Nat := 4

/-- The partition-routing function used identically at line 126 (probe side)
and line 182 (build side): the top `bits` bits of the 32-bit hash,
right-shifted. -/
def partitionIdx (bits hash : Nat) : Nat := hash >>> (32 - bits)

/-- `PartitionedHashJoinNode::ProcessBuildBatch(RowBatch*)`, lines 177-188:
for every row of the batch, evaluate and hash the build keys (skipping the
row when a key is null), route by the top `NUM_PARTITIONING_BITS` bits of
the hash, and append to that partition's `build_rows()` buffer; a failed
append returns the stored error immediately.  The partition array is
modelled by its build buffers `parts : Nat → Buffer β`. -/
def ProcessBuildBatch {β : Type} (evalAndHashBuild : β → Option Nat) :
    List β → (Nat → Buffer β) → Status × (Nat → Buffer β)
  | [], parts => (Status.ok, parts)
  | r :: rest, parts =>
    match evalAndHashBuild r with
    | none => ProcessBuildBatch evalAndHashBuild rest parts
    | some hash =>
      match AppendRow (parts (partitionIdx NUM_PARTITIONING_BITS hash)) r with
      | some buf =>
        ProcessBuildBatch evalAndHashBuild rest
          (Function.update parts (partitionIdx NUM_PARTITIONING_BITS hash) buf)
      | none => (Status.error, parts)

/-- Outcome of the row-advance section of the probe loop (lines 106-145):
either the probe batch is exhausted (line 106-110, `current_probe_row_` is
cleared and control jumps to `end`), or the spill append of the new probe
row failed (line 137-139, the call returns the stored error), or the loop
continues with the new current row, the (possibly re-established)
hash-table iterator, and the (possibly updated) partition array. -/
inductive FetchStep (α β : Type) where
  | exhausted
  | appendFailed (pos : Nat) (cur : α)
  | advanced (pos : Nat) (cur : α) (iter : List β) (hash_partitions : Nat → Partition α β)

/-- Lines 106-145 of `ProcessProbeBatch<JoinOp>`: the batch-exhaustion
check, fetching `current_probe_row_`, `EvalAndHashProbe` (on a null key the
row is skipped via `continue`, leaving the empty iterator so that the
unmatched-emission rule fires for it on the next outer iteration), the
partition routing (direct probe into `input_partition_`'s table when it has
one, else `hash_partitions_[hash >> (32 - NUM_PARTITIONING_BITS)]`), and the
closed / spilled / resident dispatch. -/
def nextProbeRow {α β : Type} (env : JoinEnv α β) (probe_batch : List α)
    (input_partition : Option (Partition α β)) (hash_partitions : Nat → Partition α β)
    (pos : Nat) (iter : List β) : FetchStep α β :=
  if pos = probe_batch.length then FetchStep.exhausted
  else
    match probe_batch[pos]? with
    | none => FetchStep.exhausted
    | some r =>
      match env.evalAndHashProbe r with
      | none => FetchStep.advanced (pos + 1) r iter hash_partitions
      | some hash =>
        match input_partition with
        | some (Partition.resident tbl) =>
          FetchStep.advanced (pos + 1) r (tbl hash) hash_partitions
        | _ =>
          match hash_partitions (partitionIdx NUM_PARTITIONING_BITS hash) with
          | Partition.closed => FetchStep.advanced (pos + 1) r iter hash_partitions
          | Partition.spilled buf =>
            match AppendRow buf r with
            | some buf' =>
              FetchStep.advanced (pos + 1) r iter
                (Function.update hash_partitions
                  (partitionIdx NUM_PARTITIONING_BITS hash) (Partition.spilled buf'))
            | none => FetchStep.appendFailed (pos + 1) r
          | Partition.resident tbl =>
            FetchStep.advanced (pos + 1) r (tbl hash) hash_partitions

theorem list_getElem?_some_lt {γ : Type} {l : List γ} {i : Nat} {x : γ}
    (h : l[i]? = some x) : i < l.length := by
  by_contra hge
  rw [List.getElem?_eq_none (Nat.le_of_not_lt hge)] at h
  exact Option.noConfusion h

theorem nextProbeRow_advanced_pos {α β : Type} {env : JoinEnv α β} {probe_batch : List α}
    {input_partition : Option (Partition α β)} {hash_partitions : Nat → Partition α β}
    {pos : Nat} {iter : List β} {pos' : Nat} {r : α} {iter' : List β}
    {parts' : Nat → Partition α β}
    (h : nextProbeRow env probe_batch input_partition hash_partitions pos iter =
      FetchStep.advanced pos' r iter' parts') :
    pos < probe_batch.length ∧ pos' = pos + 1 := by
  unfold nextProbeRow at h
  repeat' split at h
  all_goals try exact FetchStep.noConfusion h
  all_goals injection h with h1 h2 h3 h4
  all_goals exact ⟨list_getElem?_some_lt (by assumption), h1.symm⟩

/-- The values live at the `end:` label of `ProcessProbeBatch<JoinOp>`
(or at the early `return status_`): final status, the five mutable node
fields used by the loop (`probe_batch_pos_`, `current_probe_row_`,
`matched_probe_`, `hash_tbl_iterator_`, `hash_partitions_`), the build rows
on which `hash_tbl_iterator_.set_matched(true)` has been invoked (in
invocation order), the output rows written to the batch so far (made
visible by `CommitRows` only on the OK path), and `num_rows_added`. -/
structure LoopResult (α β : Type) where
  status : Status
  probe_batch_pos : Nat
  current_probe_row : Option α
  matched_probe : Bool
  hash_tbl_iterator : List β
  hash_partitions : Nat → Partition α β
  build_matched : List β
  pending : List (α × Option β)
  num_rows_added : Nat

/-- The `while (probe_batch_pos_ >= 0)` loop of
`ProcessProbeBatch<JoinOp>` (lines 51-146), with the `goto end` exits
returning `Status.ok` and the failed spill append returning
`Status.error`.  The hash-table match scan (lines 53-86) is driven by
`iter` (the remaining duplicate chain of `hash_tbl_iterator_`); the
unmatched-row emission (lines 88-100) fires when the chain is exhausted;
lines 106-145 are `nextProbeRow`.  `pending` and `numAdded` accumulate the
output rows written so far and `num_rows_added`. -/
def probeLoop {α β : Type} (J : JoinOp) (env : JoinEnv α β) (maxRows : Nat)
    (probe_batch : List α) (input_partition : Option (Partition α β))
    (hash_partitions : Nat → Partition α β) (pos : Nat) (cur : Option α)
    (matched : Bool) (iter : List β) (marked : List β)
    (pending : List (α × Option β)) (numAdded : Nat) : LoopResult α β :=
  match cur, iter with
  | some probe, b :: rest =>
    -- lines 53-86: next candidate of the current row's bucket chain
    if env.EvalOtherJoinConjuncts probe b then
      -- at this point the probe is considered matched (line 64)
      if J = JoinOp.leftAntiJoin then
        -- lines 65-69: ignore this probe row; reset the iterator and break
        probeLoop J env maxRows probe_batch input_partition hash_partitions
          pos (some probe) true [] marked pending numAdded
      else
        if env.EvalConjuncts probe (some b) then
          if numAdded + 1 = maxRows then
            ⟨Status.ok, pos, some probe, true,
              (if J = JoinOp.leftSemiJoin then ([] : List β) else rest), hash_partitions,
              (if J = JoinOp.rightOuterJoin ∨ J = JoinOp.fullOuterJoin then marked ++ [b] else marked),
              pending ++ [(probe, some b)], numAdded + 1⟩
          else
            probeLoop J env maxRows probe_batch input_partition hash_partitions
              pos (some probe) true
              (if J = JoinOp.leftSemiJoin then ([] : List β) else rest)
              (if J = JoinOp.rightOuterJoin ∨ J = JoinOp.fullOuterJoin then marked ++ [b] else marked)
              (pending ++ [(probe, some b)]) (numAdded + 1)
        else
          probeLoop J env maxRows probe_batch input_partition hash_partitions
            pos (some probe) true
            (if J = JoinOp.leftSemiJoin then ([] : List β) else rest)
            (if J = JoinOp.rightOuterJoin ∨ J = JoinOp.fullOuterJoin then marked ++ [b] else marked)
            pending numAdded
    else
      -- lines 58-61: join conjuncts failed; advance and continue
      probeLoop J env maxRows probe_batch input_partition hash_partitions
        pos (some probe) matched rest marked pending numAdded
  | some probe, [] =>
    -- lines 88-100: chain exhausted; emit the unmatched row for anti/outer kinds
    if (J = JoinOp.leftAntiJoin ∨ J = JoinOp.leftOuterJoin ∨ J = JoinOp.fullOuterJoin)
        ∧ matched = false then
      if env.EvalConjuncts probe none then
        if numAdded + 1 = maxRows then
          ⟨Status.ok, pos, some probe, true, [], hash_partitions, marked,
            pending ++ [(probe, none)], numAdded + 1⟩
        else
          match h : nextProbeRow env probe_batch input_partition hash_partitions pos ([] : List β) with
          | FetchStep.exhausted =>
            ⟨Status.ok, pos, none, true, [], hash_partitions, marked,
              pending ++ [(probe, none)], numAdded + 1⟩
          | FetchStep.appendFailed pos' r =>
            ⟨Status.error, pos', some r, false, [], hash_partitions, marked,
              pending ++ [(probe, none)], numAdded + 1⟩
          | FetchStep.advanced pos' r iter' parts' =>
            probeLoop J env maxRows probe_batch input_partition parts'
              pos' (some r) false iter' marked (pending ++ [(probe, none)]) (numAdded + 1)
      else
        match h : nextProbeRow env probe_batch input_partition hash_partitions pos ([] : List β) with
        | FetchStep.exhausted =>
          ⟨Status.ok, pos, none, matched, [], hash_partitions, marked, pending, numAdded⟩
        | FetchStep.appendFailed pos' r =>
          ⟨Status.error, pos', some r, false, [], hash_partitions, marked, pending, numAdded⟩
        | FetchStep.advanced pos' r iter' parts' =>
          probeLoop J env maxRows probe_batch input_partition parts'
            pos' (some r) false iter' marked pending numAdded
    else
      match h : nextProbeRow env probe_batch input_partition hash_partitions pos ([] : List β) with
      | FetchStep.exhausted =>
        ⟨Status.ok, pos, none, matched, [], hash_partitions, marked, pending, numAdded⟩
      | FetchStep.appendFailed pos' r =>
        ⟨Status.error, pos', some r, false, [], hash_partitions, marked, pending, numAdded⟩
      | FetchStep.advanced pos' r iter' parts' =>
        probeLoop J env maxRows probe_batch input_partition parts'
          pos' (some r) false iter' marked pending numAdded
  | none, iter =>
    match h : nextProbeRow env probe_batch input_partition hash_partitions pos iter with
    | FetchStep.exhausted =>
      ⟨Status.ok, pos, none, matched, iter, hash_partitions, marked, pending, numAdded⟩
    | FetchStep.appendFailed pos' r =>
      ⟨Status.error, pos', some r, false, iter, hash_partitions, marked, pending, numAdded⟩
    | FetchStep.advanced pos' r iter' parts' =>
      probeLoop J env maxRows probe_batch input_partition parts'
        pos' (some r) false iter' marked pending numAdded
termination_by (probe_batch.length + 1 - pos, iter.length)
decreasing_by
  all_goals simp_wf
  all_goals
    first
      | (apply Prod.Lex.right; split <;> simp)
      | (apply Prod.Lex.right; simp)
      | (obtain ⟨hlt, hpos⟩ := nextProbeRow_advanced_pos h
         subst hpos
         apply Prod.Lex.left
         omega)

/-- The mutable `PartitionedHashJoinNode` state read and written by
`ProcessProbeBatch<JoinOp>`: the probe batch and the resumable probe
cursor (`probe_batch_pos_`, `current_probe_row_`, `matched_probe_`,
`hash_tbl_iterator_`), the spilled-partition being replayed
(`input_partition_`), the partition array (`hash_partitions_`), the
build rows marked matched so far, and `num_rows_returned_`. -/
structure ProbeState (α β : Type) where
  probe_batch : List α
  probe_batch_pos : Nat
  current_probe_row : Option α
  matched_probe : Bool
  hash_tbl_iterator : List β
  input_partition : Option (Partition α β)
  hash_partitions : Nat → Partition α β
  build_matched : List β
  num_rows_returned : Nat

/-- Modelled from the spec (§6): the output `RowBatch` as seen by this
component — `capacity()`, the committed rows (`num_rows()` is their count;
rows become visible only through `CommitRows`), `AtCapacity()`. -/
structure RowBatch (ρ : Type) where
  committed : List ρ
  capacity : Nat

/-- `PartitionedHashJoinNode::ProcessProbeBatch<JoinOp>(RowBatch*,
HashTableCtx*)`, lines 38-154: computes `max_rows = capacity() -
num_rows()`, runs the probe loop, and on the OK path (label `end:`)
commits the added rows and bumps `num_rows_returned_`; on the error path
(line 138 `return status_`) the output batch is returned without any
commit, so rows written during the failing call never become visible. -/
def ProcessProbeBatch {α β : Type} (J : JoinOp) (env : JoinEnv α β)
    (st : ProbeState α β) (out_batch : RowBatch (α × Option β)) :
    Status × ProbeState α β × RowBatch (α × Option β) :=
  let max_rows := out_batch.capacity - out_batch.committed.length
  let r := probeLoop J env max_rows st.probe_batch st.input_partition st.hash_partitions
    st.probe_batch_pos st.current_probe_row st.matched_probe st.hash_tbl_iterator
    st.build_matched [] 0
  match r.status with
  | Status.ok =>
    (Status.ok,
      { st with
        probe_batch_pos := r.probe_batch_pos
        current_probe_row := r.current_probe_row
        matched_probe := r.matched_probe
        hash_tbl_iterator := r.hash_tbl_iterator
        hash_partitions := r.hash_partitions
        build_matched := r.build_matched
        num_rows_returned := st.num_rows_returned + r.num_rows_added },
      { out_batch with committed := out_batch.committed ++ r.pending })
  | Status.error =>
    (Status.error,
      { st with
        probe_batch_pos := r.probe_batch_pos
        current_probe_row := r.current_probe_row
        matched_probe := r.matched_probe
        hash_tbl_iterator := r.hash_tbl_iterator
        hash_partitions := r.hash_partitions
        build_matched := r.build_matched },
      out_batch)

/-- Driver for the capacity-suspension property: calls `ProcessProbeBatch`
repeatedly, each time with a fresh output batch of capacity 1,
accumulating the committed rows, until a call commits no row (with
capacity 1 that happens exactly when the call ran to probe-input
exhaustion rather than to output-capacity exhaustion) or fails. -/
def driveCapacityOne {α β : Type} (J : JoinOp) (env : JoinEnv α β) :
    Nat → ProbeState α β → List (α × Option β) →
    Status × ProbeState α β × List (α × Option β)
  | 0, st, acc => (Status.ok, st, acc)
  | fuel + 1, st, acc =>
    match ProcessProbeBatch J env st ⟨[], 1⟩ with
    | (Status.error, st', _) => (Status.error, st', acc)
    | (Status.ok, st', out) =>
      if out.committed.length = 0 then (Status.ok, st', acc)
      else driveCapacityOne J env fuel st' (acc ++ out.committed)

/-!  One-step unfolding lemmas for `probeLoop`, one per control-flow edge
of the source loop.  They drive both concrete evaluation and the inductive
proofs below. -/

section StepLemmas

variable {α β : Type} (J : JoinOp) (env : JoinEnv α β) (maxRows : Nat)
  (pb : List α) (inp : Option (Partition α β)) (parts : Nat → Partition α β)
  (pos : Nat) (probe : α) (matched : Bool) (b : β) (rest : List β)
  (marked : List β) (pending : List (α × Option β)) (numAdded : Nat)

theorem probeLoop_chain_miss
    (h : env.EvalOtherJoinConjuncts probe b = false) :
    probeLoop J env maxRows pb inp parts pos (some probe) matched (b :: rest) marked pending numAdded
      = probeLoop J env maxRows pb inp parts pos (some probe) matched rest marked pending numAdded := by
  conv_lhs => rw [probeLoop]
  simp [h]

theorem probeLoop_chain_anti
    (h : env.EvalOtherJoinConjuncts probe b = true) :
    probeLoop JoinOp.leftAntiJoin env maxRows pb inp parts pos (some probe) matched (b :: rest) marked pending numAdded
      = probeLoop JoinOp.leftAntiJoin env maxRows pb inp parts pos (some probe) true [] marked pending numAdded := by
  conv_lhs => rw [probeLoop]
  simp [h]

theorem probeLoop_chain_hit_full
    (h : env.EvalOtherJoinConjuncts probe b = true) (hJ : J ≠ JoinOp.leftAntiJoin)
    (hconj : env.EvalConjuncts probe (some b) = true) (hcap : numAdded + 1 = maxRows) :
    probeLoop J env maxRows pb inp parts pos (some probe) matched (b :: rest) marked pending numAdded
      = ⟨Status.ok, pos, some probe, true,
          (if J = JoinOp.leftSemiJoin then [] else rest), parts,
          (if J = JoinOp.rightOuterJoin ∨ J = JoinOp.fullOuterJoin then marked ++ [b] else marked),
          pending ++ [(probe, some b)], numAdded + 1⟩ := by
  conv_lhs => rw [probeLoop]
  simp [h, hJ, hconj, hcap]

theorem probeLoop_chain_hit
    (h : env.EvalOtherJoinConjuncts probe b = true) (hJ : J ≠ JoinOp.leftAntiJoin)
    (hconj : env.EvalConjuncts probe (some b) = true) (hncap : numAdded + 1 ≠ maxRows) :
    probeLoop J env maxRows pb inp parts pos (some probe) matched (b :: rest) marked pending numAdded
      = probeLoop J env maxRows pb inp parts pos (some probe) true
          (if J = JoinOp.leftSemiJoin then [] else rest)
          (if J = JoinOp.rightOuterJoin ∨ J = JoinOp.fullOuterJoin then marked ++ [b] else marked)
          (pending ++ [(probe, some b)]) (numAdded + 1) := by
  conv_lhs => rw [probeLoop]
  simp [h, hJ, hconj, hncap]

theorem probeLoop_chain_hit_skip
    (h : env.EvalOtherJoinConjuncts probe b = true) (hJ : J ≠ JoinOp.leftAntiJoin)
    (hconj : env.EvalConjuncts probe (some b) = false) :
    probeLoop J env maxRows pb inp parts pos (some probe) matched (b :: rest) marked pending numAdded
      = probeLoop J env maxRows pb inp parts pos (some probe) true
          (if J = JoinOp.leftSemiJoin then [] else rest)
          (if J = JoinOp.rightOuterJoin ∨ J = JoinOp.fullOuterJoin then marked ++ [b] else marked)
          pending numAdded := by
  conv_lhs => rw [probeLoop]
  simp [h, hJ, hconj]

theorem probeLoop_null_emit_full
    (hS : J = JoinOp.leftAntiJoin ∨ J = JoinOp.leftOuterJoin ∨ J = JoinOp.fullOuterJoin)
    (hconj : env.EvalConjuncts probe none = true) (hcap : numAdded + 1 = maxRows) :
    probeLoop J env maxRows pb inp parts pos (some probe) false [] marked pending numAdded
      = ⟨Status.ok, pos, some probe, true, [], parts, marked,
          pending ++ [(probe, none)], numAdded + 1⟩ := by
  conv_lhs => rw [probeLoop]
  simp [hS, hconj, hcap]

theorem probeLoop_null_emit_exhausted
    (hS : J = JoinOp.leftAntiJoin ∨ J = JoinOp.leftOuterJoin ∨ J = JoinOp.fullOuterJoin)
    (hconj : env.EvalConjuncts probe none = true) (hncap : numAdded + 1 ≠ maxRows)
    (hf : nextProbeRow env pb inp parts pos ([] : List β) = FetchStep.exhausted) :
    probeLoop J env maxRows pb inp parts pos (some probe) false [] marked pending numAdded
      = ⟨Status.ok, pos, none, true, [], parts, marked,
          pending ++ [(probe, none)], numAdded + 1⟩ := by
  conv_lhs => rw [probeLoop]
  simp [hS, hconj, hncap]
  rw [hf]

theorem probeLoop_null_emit_appendFailed (pos' : Nat) (r : α)
    (hS : J = JoinOp.leftAntiJoin ∨ J = JoinOp.leftOuterJoin ∨ J = JoinOp.fullOuterJoin)
    (hconj : env.EvalConjuncts probe none = true) (hncap : numAdded + 1 ≠ maxRows)
    (hf : nextProbeRow env pb inp parts pos ([] : List β) = FetchStep.appendFailed pos' r) :
    probeLoop J env maxRows pb inp parts pos (some probe) false [] marked pending numAdded
      = ⟨Status.error, pos', some r, false, [], parts, marked,
          pending ++ [(probe, none)], numAdded + 1⟩ := by
  conv_lhs => rw [probeLoop]
  simp [hS, hconj, hncap]
  rw [hf]

theorem probeLoop_null_emit_advanced (pos' : Nat) (r : α) (iter' : List β)
    (parts' : Nat → Partition α β)
    (hS : J = JoinOp.leftAntiJoin ∨ J = JoinOp.leftOuterJoin ∨ J = JoinOp.fullOuterJoin)
    (hconj : env.EvalConjuncts probe none = true) (hncap : numAdded + 1 ≠ maxRows)
    (hf : nextProbeRow env pb inp parts pos ([] : List β) = FetchStep.advanced pos' r iter' parts') :
    probeLoop J env maxRows pb inp parts pos (some probe) false [] marked pending numAdded
      = probeLoop J env maxRows pb inp parts' pos' (some r) false iter' marked
          (pending ++ [(probe, none)]) (numAdded + 1) := by
  conv_lhs => rw [probeLoop]
  simp [hS, hconj, hncap]
  rw [hf]

theorem probeLoop_null_skip_exhausted
    (hS : J = JoinOp.leftAntiJoin ∨ J = JoinOp.leftOuterJoin ∨ J = JoinOp.fullOuterJoin)
    (hconj : env.EvalConjuncts probe none = false)
    (hf : nextProbeRow env pb inp parts pos ([] : List β) = FetchStep.exhausted) :
    probeLoop J env maxRows pb inp parts pos (some probe) false [] marked pending numAdded
      = ⟨Status.ok, pos, none, false, [], parts, marked, pending, numAdded⟩ := by
  conv_lhs => rw [probeLoop]
  simp [hS, hconj]
  rw [hf]

theorem probeLoop_null_skip_appendFailed (pos' : Nat) (r : α)
    (hS : J = JoinOp.leftAntiJoin ∨ J = JoinOp.leftOuterJoin ∨ J = JoinOp.fullOuterJoin)
    (hconj : env.EvalConjuncts probe none = false)
    (hf : nextProbeRow env pb inp parts pos ([] : List β) = FetchStep.appendFailed pos' r) :
    probeLoop J env maxRows pb inp parts pos (some probe) false [] marked pending numAdded
      = ⟨Status.error, pos', some r, false, [], parts, marked, pending, numAdded⟩ := by
  conv_lhs => rw [probeLoop]
  simp [hS, hconj]
  rw [hf]

theorem probeLoop_null_skip_advanced (pos' : Nat) (r : α) (iter' : List β)
    (parts' : Nat → Partition α β)
    (hS : J = JoinOp.leftAntiJoin ∨ J = JoinOp.leftOuterJoin ∨ J = JoinOp.fullOuterJoin)
    (hconj : env.EvalConjuncts probe none = false)
    (hf : nextProbeRow env pb inp parts pos ([] : List β) = FetchStep.advanced pos' r iter' parts') :
    probeLoop J env maxRows pb inp parts pos (some probe) false [] marked pending numAdded
      = probeLoop J env maxRows pb inp parts' pos' (some r) false iter' marked pending numAdded := by
  conv_lhs => rw [probeLoop]
  simp [hS, hconj]
  rw [hf]

theorem probeLoop_advance_exhausted
    (hg : ¬((J = JoinOp.leftAntiJoin ∨ J = JoinOp.leftOuterJoin ∨ J = JoinOp.fullOuterJoin)
        ∧ matched = false))
    (hf : nextProbeRow env pb inp parts pos ([] : List β) = FetchStep.exhausted) :
    probeLoop J env maxRows pb inp parts pos (some probe) matched [] marked pending numAdded
      = ⟨Status.ok, pos, none, matched, [], parts, marked, pending, numAdded⟩ := by
  conv_lhs => rw [probeLoop]
  simp [hg]
  rw [hf]

theorem probeLoop_advance_appendFailed (pos' : Nat) (r : α)
    (hg : ¬((J = JoinOp.leftAntiJoin ∨ J = JoinOp.leftOuterJoin ∨ J = JoinOp.fullOuterJoin)
        ∧ matched = false))
    (hf : nextProbeRow env pb inp parts pos ([] : List β) = FetchStep.appendFailed pos' r) :
    probeLoop J env maxRows pb inp parts pos (some probe) matched [] marked pending numAdded
      = ⟨Status.error, pos', some r, false, [], parts, marked, pending, numAdded⟩ := by
  conv_lhs => rw [probeLoop]
  simp [hg]
  rw [hf]

theorem probeLoop_advance_advanced (pos' : Nat) (r : α) (iter' : List β)
    (parts' : Nat → Partition α β)
    (hg : ¬((J = JoinOp.leftAntiJoin ∨ J = JoinOp.leftOuterJoin ∨ J = JoinOp.fullOuterJoin)
        ∧ matched = false))
    (hf : nextProbeRow env pb inp parts pos ([] : List β) = FetchStep.advanced pos' r iter' parts') :
    probeLoop J env maxRows pb inp parts pos (some probe) matched [] marked pending numAdded
      = probeLoop J env maxRows pb inp parts' pos' (some r) false iter' marked pending numAdded := by
  conv_lhs => rw [probeLoop]
  simp [hg]
  rw [hf]

theorem probeLoop_none_exhausted (iter : List β)
    (hf : nextProbeRow env pb inp parts pos iter = FetchStep.exhausted) :
    probeLoop J env maxRows pb inp parts pos none matched iter marked pending numAdded
      = ⟨Status.ok, pos, none, matched, iter, parts, marked, pending, numAdded⟩ := by
  conv_lhs => rw [probeLoop]
  rw [hf]

theorem probeLoop_none_appendFailed (iter : List β) (pos' : Nat) (r : α)
    (hf : nextProbeRow env pb inp parts pos iter = FetchStep.appendFailed pos' r) :
    probeLoop J env maxRows pb inp parts pos none matched iter marked pending numAdded
      = ⟨Status.error, pos', some r, false, iter, parts, marked, pending, numAdded⟩ := by
  conv_lhs => rw [probeLoop]
  rw [hf]

theorem probeLoop_none_advanced (iter : List β) (pos' : Nat) (r : α) (iter' : List β)
    (parts' : Nat → Partition α β)
    (hf : nextProbeRow env pb inp parts pos iter = FetchStep.advanced pos' r iter' parts') :
    probeLoop J env maxRows pb inp parts pos none matched iter marked pending numAdded
      = probeLoop J env maxRows pb inp parts' pos' (some r) false iter' marked pending numAdded := by
  conv_lhs => rw [probeLoop]
  rw [hf]

end StepLemmas

section EqLemmas

variable {α β : Type} (J : JoinOp) (env : JoinEnv α β) (maxRows : Nat)
  (pb : List α) (inp : Option (Partition α β)) (parts : Nat → Partition α β)
  (pos : Nat) (probe : α) (matched : Bool) (b : β) (rest : List β)
  (marked : List β) (pending : List (α × Option β)) (numAdded : Nat)

theorem probeLoop_cons_eq :
    probeLoop J env maxRows pb inp parts pos (some probe) matched (b :: rest) marked pending numAdded
      = if env.EvalOtherJoinConjuncts probe b then
          if J = JoinOp.leftAntiJoin then
            probeLoop J env maxRows pb inp parts pos (some probe) true [] marked pending numAdded
          else
            if env.EvalConjuncts probe (some b) then
              if numAdded + 1 = maxRows then
                ⟨Status.ok, pos, some probe, true,
                  (if J = JoinOp.leftSemiJoin then [] else rest), parts,
                  (if J = JoinOp.rightOuterJoin ∨ J = JoinOp.fullOuterJoin then marked ++ [b] else marked),
                  pending ++ [(probe, some b)], numAdded + 1⟩
              else
                probeLoop J env maxRows pb inp parts pos (some probe) true
                  (if J = JoinOp.leftSemiJoin then [] else rest)
                  (if J = JoinOp.rightOuterJoin ∨ J = JoinOp.fullOuterJoin then marked ++ [b] else marked)
                  (pending ++ [(probe, some b)]) (numAdded + 1)
            else
              probeLoop J env maxRows pb inp parts pos (some probe) true
                (if J = JoinOp.leftSemiJoin then [] else rest)
                (if J = JoinOp.rightOuterJoin ∨ J = JoinOp.fullOuterJoin then marked ++ [b] else marked)
                pending numAdded
        else
          probeLoop J env maxRows pb inp parts pos (some probe) matched rest marked pending numAdded := by
  by_cases hj : env.EvalOtherJoinConjuncts probe b = true
  · by_cases hJA : J = JoinOp.leftAntiJoin
    · subst hJA
      rw [probeLoop_chain_anti _ _ _ _ _ _ _ _ _ _ _ _ _ hj, if_pos hj, if_pos rfl]
    · by_cases hc : env.EvalConjuncts probe (some b) = true
      · by_cases hcap : numAdded + 1 = maxRows
        · rw [probeLoop_chain_hit_full _ _ _ _ _ _ _ _ _ _ _ _ _ _ hj hJA hc hcap,
            if_pos hj, if_neg hJA, if_pos hc, if_pos hcap]
        · rw [probeLoop_chain_hit _ _ _ _ _ _ _ _ _ _ _ _ _ _ hj hJA hc hcap,
            if_pos hj, if_neg hJA, if_pos hc, if_neg hcap]
      · rw [probeLoop_chain_hit_skip _ _ _ _ _ _ _ _ _ _ _ _ _ _ hj hJA
            (Bool.eq_false_iff.mpr hc), if_pos hj, if_neg hJA, if_neg hc]
  · rw [probeLoop_chain_miss _ _ _ _ _ _ _ _ _ _ _ _ _ _ (Bool.eq_false_iff.mpr hj), if_neg hj]

theorem probeLoop_nil_eq :
    probeLoop J env maxRows pb inp parts pos (some probe) matched [] marked pending numAdded
      = if (J = JoinOp.leftAntiJoin ∨ J = JoinOp.leftOuterJoin ∨ J = JoinOp.fullOuterJoin)
            ∧ matched = false then
          if env.EvalConjuncts probe none then
            if numAdded + 1 = maxRows then
              ⟨Status.ok, pos, some probe, true, [], parts, marked,
                pending ++ [(probe, none)], numAdded + 1⟩
            else
              match nextProbeRow env pb inp parts pos ([] : List β) with
              | FetchStep.exhausted =>
                ⟨Status.ok, pos, none, true, [], parts, marked,
                  pending ++ [(probe, none)], numAdded + 1⟩
              | FetchStep.appendFailed pos' r =>
                ⟨Status.error, pos', some r, false, [], parts, marked,
                  pending ++ [(probe, none)], numAdded + 1⟩
              | FetchStep.advanced pos' r iter' parts' =>
                probeLoop J env maxRows pb inp parts' pos' (some r) false iter' marked
                  (pending ++ [(probe, none)]) (numAdded + 1)
          else
            match nextProbeRow env pb inp parts pos ([] : List β) with
            | FetchStep.exhausted =>
              ⟨Status.ok, pos, none, matched, [], parts, marked, pending, numAdded⟩
            | FetchStep.appendFailed pos' r =>
              ⟨Status.error, pos', some r, false, [], parts, marked, pending, numAdded⟩
            | FetchStep.advanced pos' r iter' parts' =>
              probeLoop J env maxRows pb inp parts' pos' (some r) false iter' marked pending numAdded
        else
          match nextProbeRow env pb inp parts pos ([] : List β) with
          | FetchStep.exhausted =>
            ⟨Status.ok, pos, none, matched, [], parts, marked, pending, numAdded⟩
          | FetchStep.appendFailed pos' r =>
            ⟨Status.error, pos', some r, false, [], parts, marked, pending, numAdded⟩
          | FetchStep.advanced pos' r iter' parts' =>
            probeLoop J env maxRows pb inp parts' pos' (some r) false iter' marked pending numAdded := by
  by_cases hg : (J = JoinOp.leftAntiJoin ∨ J = JoinOp.leftOuterJoin ∨ J = JoinOp.fullOuterJoin)
      ∧ matched = false
  · obtain ⟨hS, hm⟩ := hg
    subst hm
    rw [if_pos ⟨hS, rfl⟩]
    by_cases hc : env.EvalConjuncts probe none = true
    · rw [if_pos hc]
      by_cases hcap : numAdded + 1 = maxRows
      · rw [if_pos hcap, probeLoop_null_emit_full] <;> first | exact hS | exact hc | exact hcap
      · rw [if_neg hcap]
        rcases hf : nextProbeRow env pb inp parts pos ([] : List β) with _ | ⟨pos', r⟩
          | ⟨pos', r, iter', parts'⟩
        · rw [probeLoop_null_emit_exhausted] <;>
            first | exact hS | exact hc | exact hcap | exact hf
        · rw [probeLoop_null_emit_appendFailed] <;>
            first | exact hS | exact hc | exact hcap | exact hf
        · rw [probeLoop_null_emit_advanced] <;>
            first | exact hS | exact hc | exact hcap | exact hf
    · rw [if_neg hc]
      rcases hf : nextProbeRow env pb inp parts pos ([] : List β) with _ | ⟨pos', r⟩
        | ⟨pos', r, iter', parts'⟩
      · rw [probeLoop_null_skip_exhausted] <;>
          first | exact hS | exact Bool.eq_false_iff.mpr hc | exact hf
      · rw [probeLoop_null_skip_appendFailed] <;>
          first | exact hS | exact Bool.eq_false_iff.mpr hc | exact hf
      · rw [probeLoop_null_skip_advanced] <;>
          first | exact hS | exact Bool.eq_false_iff.mpr hc | exact hf
  · rw [if_neg hg]
    rcases hf : nextProbeRow env pb inp parts pos ([] : List β) with _ | ⟨pos', r⟩
      | ⟨pos', r, iter', parts'⟩
    · rw [probeLoop_advance_exhausted] <;> first | exact hg | exact hf
    · rw [probeLoop_advance_appendFailed] <;> first | exact hg | exact hf
    · rw [probeLoop_advance_advanced] <;> first | exact hg | exact hf

theorem probeLoop_none_eq (iter : List β) :
    probeLoop J env maxRows pb inp parts pos none matched iter marked pending numAdded
      = match nextProbeRow env pb inp parts pos iter with
        | FetchStep.exhausted =>
          ⟨Status.ok, pos, none, matched, iter, parts, marked, pending, numAdded⟩
        | FetchStep.appendFailed pos' r =>
          ⟨Status.error, pos', some r, false, iter, parts, marked, pending, numAdded⟩
        | FetchStep.advanced pos' r iter' parts' =>
          probeLoop J env maxRows pb inp parts' pos' (some r) false iter' marked pending numAdded := by
  rcases hf : nextProbeRow env pb inp parts pos iter with _ | ⟨pos', r⟩
    | ⟨pos', r, iter', parts'⟩
  · rw [probeLoop_none_exhausted] <;> exact hf
  · rw [probeLoop_none_appendFailed] <;> exact hf
  · rw [probeLoop_none_advanced] <;> exact hf

end EqLemmas


theorem probeLoop_numAdded_le {α β : Type} (J : JoinOp) (env : JoinEnv α β) (maxRows : Nat)
    (pb : List α) (inp : Option (Partition α β)) (parts : Nat → Partition α β)
    (pos : Nat) (cur : Option α) (matched : Bool) (iter : List β)
    (marked : List β) (pending : List (α × Option β)) (numAdded : Nat)
    (h : numAdded < maxRows) :
    (probeLoop J env maxRows pb inp parts pos cur matched iter marked pending numAdded).num_rows_added ≤ maxRows := by
  revert h
  induction parts, pos, cur, matched, iter, marked, pending, numAdded using probeLoop.induct
  case J => exact J
  case env => exact env
  case maxRows => exact maxRows
  case probe_batch => exact pb
  case input_partition => exact inp
  all_goals intro h
  all_goals
    first
      | rw [probeLoop_cons_eq]
      | rw [probeLoop_nil_eq]
      | rw [probeLoop_none_eq]
  all_goals try simp_all
  all_goals try omega
  all_goals try (apply_assumption <;> omega)
  all_goals try apply_assumption
  all_goals repeat' split
  all_goals try dsimp only
  all_goals try omega
  all_goals try (apply_assumption <;> omega)
  all_goals simp_all


theorem probeLoop_pending_count {α β : Type} (J : JoinOp) (env : JoinEnv α β) (maxRows : Nat)
    (pb : List α) (inp : Option (Partition α β)) (parts : Nat → Partition α β)
    (pos : Nat) (cur : Option α) (matched : Bool) (iter : List β)
    (marked : List β) (pending : List (α × Option β)) (numAdded : Nat) :
    (probeLoop J env maxRows pb inp parts pos cur matched iter marked pending numAdded).pending.length + numAdded
      = (probeLoop J env maxRows pb inp parts pos cur matched iter marked pending numAdded).num_rows_added
        + pending.length := by
  induction parts, pos, cur, matched, iter, marked, pending, numAdded using probeLoop.induct
  case J => exact J
  case env => exact env
  case maxRows => exact maxRows
  case probe_batch => exact pb
  case input_partition => exact inp
  all_goals
    first
      | rw [probeLoop_cons_eq]
      | rw [probeLoop_nil_eq]
      | rw [probeLoop_none_eq]
  all_goals try simp_all
  all_goals try omega
  all_goals repeat' split
  all_goals try dsimp only
  all_goals try omega
  all_goals try simp_all
  all_goals omega


theorem probeLoop_pending_extends {α β : Type} (J : JoinOp) (env : JoinEnv α β) (maxRows : Nat)
    (pb : List α) (inp : Option (Partition α β)) (parts : Nat → Partition α β)
    (pos : Nat) (cur : Option α) (matched : Bool) (iter : List β)
    (marked : List β) (pending : List (α × Option β)) (numAdded : Nat) :
    pending <+: (probeLoop J env maxRows pb inp parts pos cur matched iter marked pending numAdded).pending := by
  induction parts, pos, cur, matched, iter, marked, pending, numAdded using probeLoop.induct
  case J => exact J
  case env => exact env
  case maxRows => exact maxRows
  case probe_batch => exact pb
  case input_partition => exact inp
  all_goals
    first
      | rw [probeLoop_cons_eq]
      | rw [probeLoop_nil_eq]
      | rw [probeLoop_none_eq]
  all_goals try simp_all
  all_goals try (first
    | assumption
    | exact (List.prefix_append _ _).trans (by assumption))
  all_goals repeat' split
  all_goals try simp_all
  all_goals first
    | assumption
    | exact (List.prefix_append _ _).trans (by assumption)


theorem probeLoop_unbounded_ok_cur_none {α β : Type} (J : JoinOp) (env : JoinEnv α β)
    (pb : List α) (inp : Option (Partition α β)) (parts : Nat → Partition α β)
    (pos : Nat) (cur : Option α) (matched : Bool) (iter : List β)
    (marked : List β) (pending : List (α × Option β)) (numAdded : Nat)
    (hok : (probeLoop J env 0 pb inp parts pos cur matched iter marked pending numAdded).status = Status.ok) :
    (probeLoop J env 0 pb inp parts pos cur matched iter marked pending numAdded).current_probe_row = none := by
  revert hok
  induction parts, pos, cur, matched, iter, marked, pending, numAdded using probeLoop.induct
  case J => exact J
  case env => exact env
  case maxRows => exact 0
  case probe_batch => exact pb
  case input_partition => exact inp
  all_goals intro hok
  all_goals
    first
      | rw [probeLoop_cons_eq] at hok ⊢
      | rw [probeLoop_nil_eq] at hok ⊢
      | rw [probeLoop_none_eq] at hok ⊢
  all_goals try simp_all
  all_goals repeat' split
  all_goals try simp_all
  all_goals omega


theorem probeLoop_unbounded_acc {α β : Type} (J : JoinOp) (env : JoinEnv α β)
    (pb : List α) (inp : Option (Partition α β)) (parts : Nat → Partition α β)
    (pos : Nat) (cur : Option α) (matched : Bool) (iter : List β)
    (marked : List β) (pending : List (α × Option β)) (numAdded : Nat) :
    ∀ (p : List (α × Option β)) (n : Nat),
      probeLoop J env 0 pb inp parts pos cur matched iter marked p n
        = { probeLoop J env 0 pb inp parts pos cur matched iter marked [] 0 with
            pending := p ++ (probeLoop J env 0 pb inp parts pos cur matched iter marked [] 0).pending,
            num_rows_added := n + (probeLoop J env 0 pb inp parts pos cur matched iter marked [] 0).num_rows_added } := by
  induction parts, pos, cur, matched, iter, marked, pending, numAdded using probeLoop.induct
  case J => exact J
  case env => exact env
  case maxRows => exact 0
  case probe_batch => exact pb
  case input_partition => exact inp
  all_goals intro p n
  all_goals try omega
  case case1 =>
    rename_i hj hJA ih
    subst hJA
    simp only [probeLoop_cons_eq]
    simp [hj]
    rw [ih]
  case case3 =>
    rename_i probe b rest hj hJA hc hcap ih
    simp only [dite_eq_ite] at ih
    simp only [probeLoop_cons_eq]
    simp [hj, hJA, hc]
    rw [ih (p ++ [(probe, some b)]) (n + 1), ih [(probe, some b)] 1]
    simp [List.append_assoc]
    omega
  case case4 =>
    rename_i hj hJA hc ih
    simp only [dite_eq_ite] at ih
    simp only [probeLoop_cons_eq]
    simp [hj, hJA, hc]
    rw [ih]
  case case5 =>
    rename_i hj ih
    simp only [probeLoop_cons_eq]
    simp [hj]
    rw [ih]
  case case7 =>
    rename_i hg hc hcap hf
    simp only [probeLoop_nil_eq]
    simp [hg, hc, hf]
  case case8 =>
    rename_i hg hc hcap pos' r hf
    simp only [probeLoop_nil_eq]
    simp [hg, hc, hf]
  case case9 =>
    rename_i probe hg hc hcap pos' r iter' parts' hf ih
    simp only [probeLoop_nil_eq]
    simp [hg, hc, hf]
    rw [ih (p ++ [(probe, none)]) (n + 1), ih [(probe, none)] 1]
    simp [List.append_assoc]
    omega
  case case10 =>
    rename_i hg hc hf
    simp only [probeLoop_nil_eq]
    simp [hg, hc, hf]
  case case11 =>
    rename_i hg hc pos' r hf
    simp only [probeLoop_nil_eq]
    simp [hg, hc, hf]
  case case12 =>
    rename_i hg hc pos' r iter' parts' hf ih
    simp only [probeLoop_nil_eq]
    simp [hg, hc, hf]
    rw [ih]
  case case13 =>
    rename_i hg hf
    simp only [probeLoop_nil_eq]
    simp [hg, hf]
  case case14 =>
    rename_i hg pos' r hf
    simp only [probeLoop_nil_eq]
    simp [hg, hf]
  case case15 =>
    rename_i hg pos' r iter' parts' hf ih
    simp only [probeLoop_nil_eq]
    simp [hg, hf]
    rw [ih]
  case case16 =>
    rename_i hf
    simp only [probeLoop_none_eq]
    simp [hf]
  case case17 =>
    rename_i pos' r hf
    simp only [probeLoop_none_eq]
    simp [hf]
  case case18 =>
    rename_i pos' r iter' parts' hf ih
    simp only [probeLoop_none_eq]
    simp [hf]
    rw [ih]


theorem probeLoop_num_mono {α β : Type} (J : JoinOp) (env : JoinEnv α β) (maxRows : Nat)
    (pb : List α) (inp : Option (Partition α β)) (parts : Nat → Partition α β)
    (pos : Nat) (cur : Option α) (matched : Bool) (iter : List β)
    (marked : List β) (pending : List (α × Option β)) (numAdded : Nat) :
    numAdded ≤ (probeLoop J env maxRows pb inp parts pos cur matched iter marked pending numAdded).num_rows_added := by
  have hc := probeLoop_pending_count J env maxRows pb inp parts pos cur matched iter marked pending numAdded
  have hp := (probeLoop_pending_extends J env maxRows pb inp parts pos cur matched iter
    marked pending numAdded).length_le
  omega


theorem probeLoop_split {α β : Type} (J : JoinOp) (env : JoinEnv α β) (m : Nat)
    (pb : List α) (inp : Option (Partition α β)) (parts : Nat → Partition α β)
    (pos : Nat) (cur : Option α) (matched : Bool) (iter : List β)
    (marked : List β) (pending : List (α × Option β)) (numAdded : Nat) :
    numAdded < m →
    (probeLoop J env 0 pb inp parts pos cur matched iter marked pending numAdded).status = Status.ok →
    ((probeLoop J env 0 pb inp parts pos cur matched iter marked pending numAdded).num_rows_added < m →
      probeLoop J env m pb inp parts pos cur matched iter marked pending numAdded
        = probeLoop J env 0 pb inp parts pos cur matched iter marked pending numAdded)
    ∧ (m ≤ (probeLoop J env 0 pb inp parts pos cur matched iter marked pending numAdded).num_rows_added →
      (probeLoop J env m pb inp parts pos cur matched iter marked pending numAdded).status = Status.ok
      ∧ (probeLoop J env m pb inp parts pos cur matched iter marked pending numAdded).num_rows_added = m
      ∧ probeLoop J env 0 pb inp
          (probeLoop J env m pb inp parts pos cur matched iter marked pending numAdded).hash_partitions
          (probeLoop J env m pb inp parts pos cur matched iter marked pending numAdded).probe_batch_pos
          (probeLoop J env m pb inp parts pos cur matched iter marked pending numAdded).current_probe_row
          (probeLoop J env m pb inp parts pos cur matched iter marked pending numAdded).matched_probe
          (probeLoop J env m pb inp parts pos cur matched iter marked pending numAdded).hash_tbl_iterator
          (probeLoop J env m pb inp parts pos cur matched iter marked pending numAdded).build_matched
          (probeLoop J env m pb inp parts pos cur matched iter marked pending numAdded).pending
          (probeLoop J env m pb inp parts pos cur matched iter marked pending numAdded).num_rows_added
        = probeLoop J env 0 pb inp parts pos cur matched iter marked pending numAdded) := by
  induction parts, pos, cur, matched, iter, marked, pending, numAdded using probeLoop.induct
  case J => exact J
  case env => exact env
  case maxRows => exact 0
  case probe_batch => exact pb
  case input_partition => exact inp
  case case2 => intro h1 _; exfalso; omega
  case case6 => intro h1 _; exfalso; omega
  case case1 =>
    rename_i hj hJA ih
    subst hJA
    intro hlt hok
    simp only [probeLoop_cons_eq] at hok ⊢
    simp only [hj, if_true, eq_self_iff_true, if_pos] at hok ⊢
    exact ih hlt hok
  case case5 =>
    rename_i hj ih
    intro hlt hok
    simp only [probeLoop_cons_eq] at hok ⊢
    simp [hj] at hok ⊢
    exact ih hlt hok
  case case4 =>
    rename_i hj hJA hc ih
    intro hlt hok
    simp only [probeLoop_cons_eq] at hok ⊢
    simp [hj, hJA, hc] at hok ⊢
    exact ih hlt hok
  case case3 =>
    rename_i parts pos matched marked pending numAdded probe b rest hj hJA hc hcap ih
    intro hlt hok
    simp only [probeLoop_cons_eq] at hok ⊢
    simp [hj, hJA, hc] at hok ⊢
    by_cases hm : numAdded + 1 = m
    · constructor
      · intro hnum
        exfalso
        have hmono := probeLoop_num_mono J env 0 pb inp parts pos (some probe) true
          (if J = JoinOp.leftSemiJoin then [] else rest)
          (if J = JoinOp.rightOuterJoin ∨ J = JoinOp.fullOuterJoin then marked ++ [b] else marked)
          (pending ++ [(probe, some b)]) (numAdded + 1)
        omega
      · intro hge
        subst hm
        simp
    · have hlt' : numAdded + 1 < m := by omega
      have := ih hlt' hok
      simp [hm]
      exact this
  case case7 =>
    rename_i parts pos matched marked pending numAdded probe hg hc hcap hf
    intro hlt hok
    simp only [probeLoop_nil_eq] at hok ⊢
    simp [hg, hc, hf] at hok ⊢
    by_cases hm : numAdded + 1 = m
    · constructor
      · intro hnum; exfalso; omega
      · intro _
        subst hm
        simp [probeLoop_nil_eq, hf]
    · constructor
      · intro _; simp [hm]
      · intro hge; exfalso; omega
  case case8 =>
    rename_i parts pos matched marked pending numAdded probe hg hc hcap pos' r hf
    intro hlt hok
    rw [probeLoop_nil_eq] at hok
    simp [hg, hc, hf] at hok
  case case9 =>
    rename_i parts pos matched marked pending numAdded probe hg hc hcap pos' r iter' parts' hf ih
    intro hlt hok
    simp only [probeLoop_nil_eq] at hok ⊢
    simp [hg, hc, hf] at hok ⊢
    by_cases hm : numAdded + 1 = m
    · constructor
      · intro hnum
        exfalso
        have hmono := probeLoop_num_mono J env 0 pb inp parts' pos' (some r) false iter'
          marked (pending ++ [(probe, none)]) (numAdded + 1)
        omega
      · intro _
        subst hm
        simp [probeLoop_nil_eq, hf]
    · have hlt' : numAdded + 1 < m := by omega
      have := ih hlt' hok
      simp [hm]
      exact this
  case case10 =>
    rename_i parts pos matched marked pending numAdded probe hg hc hf
    intro hlt hok
    simp only [probeLoop_nil_eq] at hok ⊢
    simp [hg, hc, hf] at hok ⊢
    exact fun hge => absurd hge (by omega)
  case case11 =>
    rename_i parts pos matched marked pending numAdded probe hg hc pos' r hf
    intro hlt hok
    rw [probeLoop_nil_eq] at hok
    simp [hg, hc, hf] at hok
  case case12 =>
    rename_i parts pos matched marked pending numAdded probe hg hc pos' r iter' parts' hf ih
    intro hlt hok
    simp only [probeLoop_nil_eq] at hok ⊢
    simp [hg, hc, hf] at hok ⊢
    exact ih hlt hok
  case case13 =>
    rename_i parts pos matched marked pending numAdded probe hg hf
    intro hlt hok
    simp only [probeLoop_nil_eq] at hok ⊢
    simp [hg, hf] at hok ⊢
    exact fun hge => absurd hge (by omega)
  case case14 =>
    rename_i parts pos matched marked pending numAdded probe hg pos' r hf
    intro hlt hok
    rw [probeLoop_nil_eq] at hok
    simp [hg, hf] at hok
  case case15 =>
    rename_i parts pos matched marked pending numAdded probe hg pos' r iter' parts' hf ih
    intro hlt hok
    simp only [probeLoop_nil_eq] at hok ⊢
    simp [hg, hf] at hok ⊢
    exact ih hlt hok
  case case16 =>
    rename_i parts pos matched iter marked pending numAdded hf
    intro hlt hok
    simp only [probeLoop_none_eq] at hok ⊢
    simp [hf] at hok ⊢
    exact fun hge => absurd hge (by omega)
  case case17 =>
    rename_i parts pos matched iter marked pending numAdded pos' r hf
    intro hlt hok
    rw [probeLoop_none_eq] at hok
    simp [hf] at hok
  case case18 =>
    rename_i parts pos matched iter marked pending numAdded pos' r iter' parts' hf ih
    intro hlt hok
    simp only [probeLoop_none_eq] at hok ⊢
    simp [hf] at hok ⊢
    exact ih hlt hok


/-- The probe-loop result of running the current probe batch to exhaustion
with no output-capacity bound (`maxRows = 0` never triggers the
`num_rows_added == max_rows` suspension, since `num_rows_added` is
incremented from 0 one row at a time). -/
def unboundedRun {α β : Type} (J : JoinOp) (env : JoinEnv α β) (st : ProbeState α β) :
    LoopResult α β :=
  probeLoop J env 0 st.probe_batch st.input_partition st.hash_partitions
    st.probe_batch_pos st.current_probe_row st.matched_probe st.hash_tbl_iterator
    st.build_matched [] 0

theorem driveCapacityOne_spec {α β : Type} (J : JoinOp) (env : JoinEnv α β) :
    ∀ (k : Nat) (st : ProbeState α β) (acc : List (α × Option β)),
      (unboundedRun J env st).status = Status.ok →
      (unboundedRun J env st).num_rows_added = k →
      (driveCapacityOne J env (k + 1) st acc).1 = Status.ok
        ∧ (driveCapacityOne J env (k + 1) st acc).2.2 = acc ++ (unboundedRun J env st).pending := by
  intro k
  induction k using Nat.strong_induction_on with
  | _ k ih =>
    intro st acc hok hnum
    simp only [unboundedRun] at hok hnum ⊢
    have hsplit := probeLoop_split J env 1 st.probe_batch st.input_partition st.hash_partitions
      st.probe_batch_pos st.current_probe_row st.matched_probe st.hash_tbl_iterator
      st.build_matched [] 0 (by omega) hok
    have hcount := probeLoop_pending_count J env 1 st.probe_batch st.input_partition
      st.hash_partitions st.probe_batch_pos st.current_probe_row st.matched_probe
      st.hash_tbl_iterator st.build_matched [] 0
    have hcountU := probeLoop_pending_count J env 0 st.probe_batch st.input_partition
      st.hash_partitions st.probe_batch_pos st.current_probe_row st.matched_probe
      st.hash_tbl_iterator st.build_matched [] 0
    simp only [List.length_nil, Nat.add_zero] at hcount hcountU
    by_cases hk : (probeLoop J env 0 st.probe_batch st.input_partition st.hash_partitions
        st.probe_batch_pos st.current_probe_row st.matched_probe st.hash_tbl_iterator
        st.build_matched [] 0).num_rows_added < 1
    · -- no row to produce: the single capacity-1 call exhausts the input
      have hBU := hsplit.1 hk
      have hpend : (probeLoop J env 0 st.probe_batch st.input_partition st.hash_partitions
          st.probe_batch_pos st.current_probe_row st.matched_probe st.hash_tbl_iterator
          st.build_matched [] 0).pending = [] := List.length_eq_zero.mp (by omega)
      simp only [driveCapacityOne, ProcessProbeBatch]
      simp [hBU, hok, hpend]
    · -- the call commits exactly one row and suspends; recurse on the rest
      obtain ⟨k', rfl⟩ : ∃ k', k = k' + 1 := ⟨k - 1, by omega⟩
      obtain ⟨hBok, hBnum, hcont⟩ := hsplit.2 (by omega)
      have hacc := probeLoop_unbounded_acc J env st.probe_batch st.input_partition
        (probeLoop J env 1 st.probe_batch st.input_partition st.hash_partitions
          st.probe_batch_pos st.current_probe_row st.matched_probe st.hash_tbl_iterator
          st.build_matched [] 0).hash_partitions
        (probeLoop J env 1 st.probe_batch st.input_partition st.hash_partitions
          st.probe_batch_pos st.current_probe_row st.matched_probe st.hash_tbl_iterator
          st.build_matched [] 0).probe_batch_pos
        (probeLoop J env 1 st.probe_batch st.input_partition st.hash_partitions
          st.probe_batch_pos st.current_probe_row st.matched_probe st.hash_tbl_iterator
          st.build_matched [] 0).current_probe_row
        (probeLoop J env 1 st.probe_batch st.input_partition st.hash_partitions
          st.probe_batch_pos st.current_probe_row st.matched_probe st.hash_tbl_iterator
          st.build_matched [] 0).matched_probe
        (probeLoop J env 1 st.probe_batch st.input_partition st.hash_partitions
          st.probe_batch_pos st.current_probe_row st.matched_probe st.hash_tbl_iterator
          st.build_matched [] 0).hash_tbl_iterator
        (probeLoop J env 1 st.probe_batch st.input_partition st.hash_partitions
          st.probe_batch_pos st.current_probe_row st.matched_probe st.hash_tbl_iterator
          st.build_matched [] 0).build_matched [] 0
        (probeLoop J env 1 st.probe_batch st.input_partition st.hash_partitions
          st.probe_batch_pos st.current_probe_row st.matched_probe st.hash_tbl_iterator
          st.build_matched [] 0).pending
        (probeLoop J env 1 st.probe_batch st.input_partition st.hash_partitions
          st.probe_batch_pos st.current_probe_row st.matched_probe st.hash_tbl_iterator
          st.build_matched [] 0).num_rows_added
      rw [hcont] at hacc
      -- hacc : U = { U' with pending := B.pending ++ U'.pending, num := B.num + U'.num }
      have hstat := congrArg LoopResult.status hacc
      have hnum2 := congrArg LoopResult.num_rows_added hacc
      have hpend2 := congrArg LoopResult.pending hacc
      simp only [] at hstat hnum2 hpend2
      rw [hok] at hstat
      rw [hnum] at hnum2
      have hBlen : (probeLoop J env 1 st.probe_batch st.input_partition st.hash_partitions
          st.probe_batch_pos st.current_probe_row st.matched_probe st.hash_tbl_iterator
          st.build_matched [] 0).pending.length = 1 := by omega
      rw [driveCapacityOne]
      simp only [ProcessProbeBatch]
      simp [hBok, hBlen]
      have hrec := ih k' (by omega)
        ⟨st.probe_batch,
         (probeLoop J env 1 st.probe_batch st.input_partition st.hash_partitions
          st.probe_batch_pos st.current_probe_row st.matched_probe st.hash_tbl_iterator
          st.build_matched [] 0).probe_batch_pos,
         (probeLoop J env 1 st.probe_batch st.input_partition st.hash_partitions
          st.probe_batch_pos st.current_probe_row st.matched_probe st.hash_tbl_iterator
          st.build_matched [] 0).current_probe_row,
         (probeLoop J env 1 st.probe_batch st.input_partition st.hash_partitions
          st.probe_batch_pos st.current_probe_row st.matched_probe st.hash_tbl_iterator
          st.build_matched [] 0).matched_probe,
         (probeLoop J env 1 st.probe_batch st.input_partition st.hash_partitions
          st.probe_batch_pos st.current_probe_row st.matched_probe st.hash_tbl_iterator
          st.build_matched [] 0).hash_tbl_iterator,
         st.input_partition,
         (probeLoop J env 1 st.probe_batch st.input_partition st.hash_partitions
          st.probe_batch_pos st.current_probe_row st.matched_probe st.hash_tbl_iterator
          st.build_matched [] 0).hash_partitions,
         (probeLoop J env 1 st.probe_batch st.input_partition st.hash_partitions
          st.probe_batch_pos st.current_probe_row st.matched_probe st.hash_tbl_iterator
          st.build_matched [] 0).build_matched,
         st.num_rows_returned + (probeLoop J env 1 st.probe_batch st.input_partition st.hash_partitions
          st.probe_batch_pos st.current_probe_row st.matched_probe st.hash_tbl_iterator
          st.build_matched [] 0).num_rows_added⟩
        (acc ++ (probeLoop J env 1 st.probe_batch st.input_partition st.hash_partitions
          st.probe_batch_pos st.current_probe_row st.matched_probe st.hash_tbl_iterator
          st.build_matched [] 0).pending)
        (by simp only [unboundedRun]; exact hstat.symm)
        (by simp only [unboundedRun]; omega)
      simp only [unboundedRun] at hrec
      refine ⟨hrec.1, ?_⟩
      rw [hrec.2, hpend2]
      simp

/-- C1: for every probe input (any resumable probe-state whose unbounded run
succeeds) and every join kind, calling `ProcessProbeBatch` repeatedly with an
output batch of capacity 1 until the probe input is exhausted produces
exactly the same committed output rows, in the same order, with no row
skipped or duplicated, as a single call with unbounded output capacity
(any capacity strictly larger than the total number of produced rows);
the suspension state left by a full output batch resumes at the next
candidate, which is what the drive equivalence proves. -/
theorem c1_capacity_suspension_equivalence {α β : Type} (J : JoinOp) (env : JoinEnv α β)
    (st : ProbeState α β)
    (hok : (unboundedRun J env st).status = Status.ok) :
    (∀ c : Nat, (unboundedRun J env st).num_rows_added < c →
        (ProcessProbeBatch J env st ⟨[], c⟩).1 = Status.ok
        ∧ (ProcessProbeBatch J env st ⟨[], c⟩).2.2.committed = (unboundedRun J env st).pending)
    ∧ (driveCapacityOne J env ((unboundedRun J env st).num_rows_added + 1) st []).1 = Status.ok
    ∧ (driveCapacityOne J env ((unboundedRun J env st).num_rows_added + 1) st []).2.2
        = (unboundedRun J env st).pending := by
  refine ⟨?_, ?_, ?_⟩
  · intro c hc
    have hsplit := probeLoop_split J env c st.probe_batch st.input_partition st.hash_partitions
      st.probe_batch_pos st.current_probe_row st.matched_probe st.hash_tbl_iterator
      st.build_matched [] 0 (by omega) hok
    have hBU := hsplit.1 (by unfold unboundedRun at hc; exact hc)
    simp only [ProcessProbeBatch]
    unfold unboundedRun at hBU hok ⊢
    simp [hBU, hok]
  · exact (driveCapacityOne_spec J env (unboundedRun J env st).num_rows_added st [] hok rfl).1
  · simpa using
      (driveCapacityOne_spec J env (unboundedRun J env st).num_rows_added st [] hok rfl).2


/-- A concrete instance for witnesses: probe rows and build rows are `Nat`,
join conjuncts compare parities, output conjuncts always pass, every row
hashes to a value whose top four bits select partition `p`. -/
def exEnv : JoinEnv Nat Nat :=
  ⟨fun p b => decide (p % 2 = b % 2), fun _ _ => true, fun p => some (p * 2 ^ 28)⟩

def exParts : Nat → Partition Nat Nat :=
  fun _ => Partition.resident (fun _ => [10, 11, 12])

def exState : ProbeState Nat Nat :=
  ⟨[1, 2], 0, none, false, [], none, exParts, [], 0⟩

theorem c1_capacity_suspension_equivalence_witness :
    (unboundedRun JoinOp.innerJoin exEnv exState).status = Status.ok
    ∧ (ProcessProbeBatch JoinOp.innerJoin exEnv exState ⟨[], 4⟩).2.2.committed
        = (unboundedRun JoinOp.innerJoin exEnv exState).pending
    ∧ (driveCapacityOne JoinOp.innerJoin exEnv
        ((unboundedRun JoinOp.innerJoin exEnv exState).num_rows_added + 1) exState []).2.2
        = (unboundedRun JoinOp.innerJoin exEnv exState).pending := by
  have hok : (unboundedRun JoinOp.innerJoin exEnv exState).status = Status.ok := by
    simp [unboundedRun, exEnv, exParts, exState, probeLoop_cons_eq, probeLoop_nil_eq,
      probeLoop_none_eq, nextProbeRow]
  have hnum : (unboundedRun JoinOp.innerJoin exEnv exState).num_rows_added < 4 := by
    simp [unboundedRun, exEnv, exParts, exState, probeLoop_cons_eq, probeLoop_nil_eq,
      probeLoop_none_eq, nextProbeRow]
  have h := c1_capacity_suspension_equivalence JoinOp.innerJoin exEnv exState hok
  exact ⟨hok, (h.1 4 hnum).2, h.2.2⟩


/-- C2: for every call entered with an output batch that is not at capacity,
the number of rows the loop adds is at most `max_rows = capacity() -
num_rows()` (the `DCHECK_LE(num_rows_added, max_rows)` at the `end:` label),
and after `CommitRows` the output batch holds at most `capacity()` rows —
the batch never overflows. -/
theorem c2_output_capacity_bound {α β : Type} (J : JoinOp) (env : JoinEnv α β)
    (st : ProbeState α β) (out : RowBatch (α × Option β))
    (h : out.committed.length < out.capacity) :
    (probeLoop J env (out.capacity - out.committed.length) st.probe_batch st.input_partition
        st.hash_partitions st.probe_batch_pos st.current_probe_row st.matched_probe
        st.hash_tbl_iterator st.build_matched [] 0).num_rows_added
      ≤ out.capacity - out.committed.length
    ∧ (ProcessProbeBatch J env st out).2.2.committed.length ≤ out.capacity := by
  have h1 := probeLoop_numAdded_le J env (out.capacity - out.committed.length)
    st.probe_batch st.input_partition st.hash_partitions st.probe_batch_pos
    st.current_probe_row st.matched_probe st.hash_tbl_iterator st.build_matched [] 0
    (by omega)
  refine ⟨h1, ?_⟩
  have hcount := probeLoop_pending_count J env (out.capacity - out.committed.length)
    st.probe_batch st.input_partition st.hash_partitions st.probe_batch_pos
    st.current_probe_row st.matched_probe st.hash_tbl_iterator st.build_matched [] 0
  simp only [List.length_nil, Nat.add_zero] at hcount
  simp only [ProcessProbeBatch]
  split
  · simp
    omega
  · simp
    omega

theorem c2_output_capacity_bound_witness :
    ([] : List (Nat × Option Nat)).length < 2
    ∧ ((probeLoop JoinOp.innerJoin exEnv (2 - ([] : List (Nat × Option Nat)).length)
        exState.probe_batch exState.input_partition exState.hash_partitions
        exState.probe_batch_pos exState.current_probe_row exState.matched_probe
        exState.hash_tbl_iterator exState.build_matched [] 0).num_rows_added
          ≤ 2 - ([] : List (Nat × Option Nat)).length
      ∧ (ProcessProbeBatch JoinOp.innerJoin exEnv exState ⟨[], 2⟩).2.2.committed.length ≤ 2) :=
  ⟨by decide,
   c2_output_capacity_bound JoinOp.innerJoin exEnv exState ⟨[], 2⟩ (by decide)⟩


/-- C3: the partition index used to route a row is exactly
`hash >> (32 - NUM_PARTITIONING_BITS)`, and the same `partitionIdx`
expression is evaluated at line 182 (build side, shown here on a
single-row batch: the row is appended to the buffer at that index) and at
line 126 (probe side, shown here: the hash-table iterator is established
from the partition at that index); the shift equals division by
`2 ^ (32 - bits)`, so two rows with equal hash route identically, and
routing depends only on the top `bits` bits of the hash (changing the low
`32 - bits` bits never changes the partition index). -/
theorem c3_partition_routing :
    (∀ bits hash : Nat, partitionIdx bits hash = hash / 2 ^ (32 - bits))
    ∧ (∀ h1 h2 : Nat, h1 = h2 →
        partitionIdx NUM_PARTITIONING_BITS h1 = partitionIdx NUM_PARTITIONING_BITS h2)
    ∧ (∀ bits hash low : Nat, low < 2 ^ (32 - bits) →
        partitionIdx bits (2 ^ (32 - bits) * (hash >>> (32 - bits)) + low)
          = partitionIdx bits hash)
    ∧ (∀ (β : Type) (f : β → Option Nat) (parts : Nat → Buffer β) (r : β) (hash : Nat)
        (buf : Buffer β),
        f r = some hash →
        AppendRow (parts (partitionIdx NUM_PARTITIONING_BITS hash)) r = some buf →
        ProcessBuildBatch f [r] parts
          = (Status.ok, Function.update parts (partitionIdx NUM_PARTITIONING_BITS hash) buf))
    ∧ (∀ (α β : Type) (env : JoinEnv α β) (pb : List α) (parts : Nat → Partition α β)
        (pos : Nat) (r : α) (hash : Nat) (tbl : Nat → List β) (iter : List β),
        pb[pos]? = some r → pos ≠ pb.length → env.evalAndHashProbe r = some hash →
        parts (partitionIdx NUM_PARTITIONING_BITS hash) = Partition.resident tbl →
        nextProbeRow env pb none parts pos iter
          = FetchStep.advanced (pos + 1) r (tbl hash) parts) := by
  refine ⟨?_, ?_, ?_, ?_, ?_⟩
  · intro bits hash
    simp [partitionIdx, Nat.shiftRight_eq_div_pow]
  · intro h1 h2 h
    rw [h]
  · intro bits hash low hlow
    simp only [partitionIdx, Nat.shiftRight_eq_div_pow]
    rw [Nat.mul_add_div (Nat.pos_pow_of_pos _ (by norm_num)), Nat.div_eq_of_lt hlow]
    omega
  · intro β f parts r hash buf hf happ
    simp [ProcessBuildBatch, hf, happ]
  · intro α β env pb parts pos r hash tbl iter hget hne henv hpart
    simp [nextProbeRow, hne, hget, henv, hpart]

theorem c3_partition_routing_witness :
    partitionIdx NUM_PARTITIONING_BITS 0xF0000001 = 15
    ∧ partitionIdx NUM_PARTITIONING_BITS 0xF0000001 = 0xF0000001 / 2 ^ 28
    ∧ ProcessBuildBatch (fun b : Nat => some b) [0xF0000001] (fun _ => ⟨[], none⟩)
        = (Status.ok, Function.update (fun _ => (⟨[], none⟩ : Buffer Nat)) 15
            ⟨[0xF0000001], none⟩)
    ∧ nextProbeRow exEnv [1] none exParts 0 []
        = FetchStep.advanced 1 1 [10, 11, 12] exParts := by
  refine ⟨by decide, ?_, ?_, ?_⟩
  · exact (c3_partition_routing.1 NUM_PARTITIONING_BITS 0xF0000001)
  · have := c3_partition_routing.2.2.2.1 Nat (fun b => some b) (fun _ => ⟨[], none⟩)
      0xF0000001 0xF0000001 ⟨[0xF0000001], none⟩ rfl (by simp [AppendRow])
    simpa [partitionIdx, NUM_PARTITIONING_BITS] using this
  · have := c3_partition_routing.2.2.2.2 Nat Nat exEnv [1] exParts 0 1 (2 ^ 28)
      (fun _ => [10, 11, 12]) [] rfl (by simp) (by simp [exEnv]) (by simp [exParts])
    simpa using this


/-- C4: when the bucket chain for the current probe row is exhausted and the
row was never matched, `ProcessProbeBatch` pairs the probe row with a NULL
build side, evaluates the output conjuncts on it, and commits it exactly
when they pass and the join kind is Left-Anti, Left-Outer or Full-Outer;
for every other join kind nothing is emitted from this step. -/
theorem c4_unmatched_null_emission {α β : Type} (J : JoinOp) (env : JoinEnv α β)
    (r : α) (inp : Option (Partition α β)) (parts : Nat → Partition α β) :
    (ProcessProbeBatch J env ⟨[], 0, some r, false, [], inp, parts, [], 0⟩ ⟨[], 2⟩).2.2.committed
      = if (J = JoinOp.leftAntiJoin ∨ J = JoinOp.leftOuterJoin ∨ J = JoinOp.fullOuterJoin)
            ∧ env.EvalConjuncts r none = true
        then [(r, none)] else [] := by
  have hf : nextProbeRow env ([] : List α) inp parts 0 ([] : List β) = FetchStep.exhausted := by
    simp [nextProbeRow]
  simp only [ProcessProbeBatch]
  rw [probeLoop_nil_eq]
  by_cases hS : J = JoinOp.leftAntiJoin ∨ J = JoinOp.leftOuterJoin ∨ J = JoinOp.fullOuterJoin
  · by_cases hc : env.EvalConjuncts r none = true
    · simp [hS, hc, hf]
    · simp [hS, hc, hf]
  · simp [hS, hf]

theorem antiChain_suppresses {α β : Type} (env : JoinEnv α β) (maxRows : Nat)
    (inp : Option (Partition α β)) (parts : Nat → Partition α β) (r : α) (marked : List β) :
    ∀ (chain : List β) (matched : Bool) (pending : List (α × Option β)) (numAdded : Nat),
      chain.any (env.EvalOtherJoinConjuncts r) = true →
      probeLoop JoinOp.leftAntiJoin env maxRows ([] : List α) inp parts 0 (some r) matched
          chain marked pending numAdded
        = ⟨Status.ok, 0, none, true, [], parts, marked, pending, numAdded⟩ := by
  have hf : nextProbeRow env ([] : List α) inp parts 0 ([] : List β) = FetchStep.exhausted := by
    simp [nextProbeRow]
  intro chain
  induction chain with
  | nil => intro matched pending numAdded hex; simp at hex
  | cons b rest ih =>
    intro matched pending numAdded hex
    by_cases hp : env.EvalOtherJoinConjuncts r b = true
    · rw [probeLoop_chain_anti _ _ _ _ _ _ _ _ _ _ _ _ _ hp]
      rw [probeLoop_nil_eq]
      simp [hf]
    · rw [probeLoop_chain_miss _ _ _ _ _ _ _ _ _ _ _ _ _ _ (Bool.eq_false_iff.mpr hp)]
      refine ih matched pending numAdded ?_
      simp only [List.any_cons, hp] at hex
      simpa using hex

/-- C5: under Left-Anti, a probe row with at least one candidate passing
the join conjuncts produces no output row at all — the remaining chain is
abandoned on the first passing match and the row is marked matched, so the
null-paired emission never fires for it. -/
theorem c5_left_anti_match_suppresses {α β : Type} (env : JoinEnv α β) (r : α)
    (chain : List β) (inp : Option (Partition α β)) (parts : Nat → Partition α β)
    (hex : chain.any (env.EvalOtherJoinConjuncts r) = true) :
    (ProcessProbeBatch JoinOp.leftAntiJoin env ⟨[], 0, some r, false, chain, inp, parts, [], 0⟩
        ⟨[], 2⟩).2.2.committed = []
    ∧ (ProcessProbeBatch JoinOp.leftAntiJoin env ⟨[], 0, some r, false, chain, inp, parts, [], 0⟩
        ⟨[], 2⟩).2.1.matched_probe = true := by
  simp only [ProcessProbeBatch, List.length_nil, Nat.sub_zero]
  rw [antiChain_suppresses env 2 inp parts r [] chain false [] 0 hex]
  simp

theorem c5_left_anti_match_suppresses_witness :
    ([10, 11, 12].any (exEnv.EvalOtherJoinConjuncts 1) = true)
    ∧ (ProcessProbeBatch JoinOp.leftAntiJoin exEnv
        ⟨[], 0, some 1, false, [10, 11, 12], none, exParts, [], 0⟩ ⟨[], 2⟩).2.2.committed = [] :=
  ⟨by decide,
   (c5_left_anti_match_suppresses exEnv 1 [10, 11, 12] none exParts (by decide)).1⟩


theorem semiChain_pending_le {α β : Type} (env : JoinEnv α β) (maxRows : Nat)
    (inp : Option (Partition α β)) (parts : Nat → Partition α β) (r : α) (marked : List β) :
    ∀ (chain : List β) (matched : Bool) (pending : List (α × Option β)) (numAdded : Nat),
      (probeLoop JoinOp.leftSemiJoin env maxRows ([] : List α) inp parts 0 (some r) matched
          chain marked pending numAdded).pending.length ≤ pending.length + 1 := by
  have hf : nextProbeRow env ([] : List α) inp parts 0 ([] : List β) = FetchStep.exhausted := by
    simp [nextProbeRow]
  intro chain
  induction chain with
  | nil =>
    intro matched pending numAdded
    rw [probeLoop_nil_eq]
    simp [hf]
  | cons b rest ih =>
    intro matched pending numAdded
    rw [probeLoop_cons_eq]
    by_cases hp : env.EvalOtherJoinConjuncts r b = true
    · simp only [hp, if_true, eq_self_iff_true]
      by_cases hc : env.EvalConjuncts r (some b) = true
      · simp only [hc, if_true, eq_self_iff_true]
        simp
        by_cases hcap : numAdded + 1 = maxRows
        · simp [hcap]
        · simp [hcap]
          rw [probeLoop_nil_eq]
          simp [hf]
      · simp only [hc]
        simp
        rw [probeLoop_nil_eq]
        simp [hf]
    · simp only [hp]
      simp
      exact ih matched pending numAdded

/-- C6: under Left-Semi, a probe row commits at most one output row,
whatever its bucket chain and whatever the output-batch capacity: after the
first candidate passing the join conjuncts the iterator is reset, so the
remaining chain — including further hash-equal matching build rows — is
abandoned. -/
theorem c6_left_semi_at_most_one {α β : Type} (env : JoinEnv α β) (r : α)
    (chain : List β) (inp : Option (Partition α β)) (parts : Nat → Partition α β) (c : Nat) :
    (ProcessProbeBatch JoinOp.leftSemiJoin env ⟨[], 0, some r, false, chain, inp, parts, [], 0⟩
        ⟨[], c⟩).2.2.committed.length ≤ 1 := by
  have h := semiChain_pending_le env (c - ([] : List (Nat × Option Nat)).length) inp parts r []
    chain false [] 0
  simp only [List.length_nil, Nat.sub_zero] at h ⊢
  simp only [ProcessProbeBatch, List.length_nil, Nat.sub_zero]
  split
  · simpa using h
  · simp


theorem nilRow_build_matched {α β : Type} (J : JoinOp) (env : JoinEnv α β) (maxRows : Nat)
    (inp : Option (Partition α β)) (parts : Nat → Partition α β) (r : α)
    (matched : Bool) (pending : List (α × Option β)) (numAdded : Nat) (marked : List β) :
    (probeLoop J env maxRows ([] : List α) inp parts 0 (some r) matched [] marked
        pending numAdded).build_matched = marked := by
  have hf : nextProbeRow env ([] : List α) inp parts 0 ([] : List β) = FetchStep.exhausted := by
    simp [nextProbeRow]
  rw [probeLoop_nil_eq]
  repeat' split
  all_goals simp_all [hf]

theorem chainScan_build_matched {α β : Type} (J : JoinOp) (env : JoinEnv α β) (maxRows : Nat)
    (inp : Option (Partition α β)) (parts : Nat → Partition α β) (r : α) :
    ∀ (chain : List β) (matched : Bool) (pending : List (α × Option β)) (numAdded : Nat)
      (marked : List β),
      numAdded + chain.length < maxRows →
      (probeLoop J env maxRows ([] : List α) inp parts 0 (some r) matched chain marked
          pending numAdded).build_matched
        = marked ++ (if J = JoinOp.rightOuterJoin ∨ J = JoinOp.fullOuterJoin
            then chain.filter (env.EvalOtherJoinConjuncts r) else []) := by
  intro chain
  induction chain with
  | nil =>
    intro matched pending numAdded marked hcap
    simp [nilRow_build_matched]
  | cons b rest ih =>
    intro matched pending numAdded marked hcap
    rw [probeLoop_cons_eq]
    by_cases hp : env.EvalOtherJoinConjuncts r b = true
    · simp only [hp, if_true, eq_self_iff_true]
      by_cases hJA : J = JoinOp.leftAntiJoin
      · subst hJA
        simp [nilRow_build_matched]
      · simp only [hJA, if_neg, if_false]
        by_cases hsemi : J = JoinOp.leftSemiJoin
        · subst hsemi
          simp only [List.length_cons] at hcap
          by_cases hc : env.EvalConjuncts r (some b) = true
          · simp [hc, nilRow_build_matched, show ¬(numAdded + 1 = maxRows) from by omega]
          · simp [hc, nilRow_build_matched]
        · by_cases hc : env.EvalConjuncts r (some b) = true
          · simp only [List.length_cons] at hcap
            have hncap : ¬(numAdded + 1 = maxRows) := by omega
            simp only [hc, hncap, if_true, if_false, eq_self_iff_true, hsemi, ite_false,
              if_neg, hJA]
            try simp [hsemi]
            rw [ih true (pending ++ [(r, some b)]) (numAdded + 1)
              (if J = JoinOp.rightOuterJoin ∨ J = JoinOp.fullOuterJoin then marked ++ [b]
                else marked) (by omega)]
            by_cases hro : J = JoinOp.rightOuterJoin ∨ J = JoinOp.fullOuterJoin
            · simp [hro, hp]
            · simp [hro]
          · simp only [hc, hsemi, ite_false, if_neg, hJA]
            try simp [hsemi]
            rw [ih true pending numAdded
              (if J = JoinOp.rightOuterJoin ∨ J = JoinOp.fullOuterJoin then marked ++ [b]
                else marked) (by simp at hcap ⊢; omega)]
            by_cases hro : J = JoinOp.rightOuterJoin ∨ J = JoinOp.fullOuterJoin
            · simp [hro, hp]
            · simp [hro]
    · simp only [hp]
      simp
      rw [ih matched pending numAdded marked (by simp at hcap ⊢; omega)]
      congr 1
      by_cases hro : J = JoinOp.rightOuterJoin ∨ J = JoinOp.fullOuterJoin
      · simp [hro, List.filter_cons, hp]
      · simp [hro]

/-- C7: for Right-Outer and Full-Outer, `ProcessProbeBatch` invokes
`hash_tbl_iterator_.set_matched(true)` on exactly the build rows of the
current row's bucket chain on which the join conjuncts pass (whether or not
the output conjuncts then let the row be emitted), and on no other build
row; for every other join kind `set_matched` is never invoked. -/
theorem c7_set_matched_exactly_matching {α β : Type} (J : JoinOp) (env : JoinEnv α β)
    (r : α) (chain : List β) (inp : Option (Partition α β)) (parts : Nat → Partition α β) :
    (ProcessProbeBatch J env ⟨[], 0, some r, false, chain, inp, parts, [], 0⟩
        ⟨[], chain.length + 2⟩).2.1.build_matched
      = if J = JoinOp.rightOuterJoin ∨ J = JoinOp.fullOuterJoin
        then chain.filter (env.EvalOtherJoinConjuncts r) else [] := by
  have h := chainScan_build_matched J env (chain.length + 2 - ([] : List (α × Option β)).length)
    inp parts r chain false [] 0 [] (by simp only [List.length_nil, Nat.sub_zero]; omega)
  simp only [ProcessProbeBatch]
  split
  · simpa using h
  · simpa using h


theorem absentRow_run {α β : Type} (J : JoinOp) (env : JoinEnv α β) (r : α)
    (inp : Option (Partition α β)) (parts : Nat → Partition α β)
    (henv : env.evalAndHashProbe r = none) :
    (ProcessProbeBatch J env ⟨[r], 0, none, false, [], inp, parts, [], 0⟩ ⟨[], 2⟩).1
        = Status.ok
    ∧ (ProcessProbeBatch J env ⟨[r], 0, none, false, [], inp, parts, [], 0⟩
        ⟨[], 2⟩).2.1.hash_partitions = parts
    ∧ (ProcessProbeBatch J env ⟨[r], 0, none, false, [], inp, parts, [], 0⟩
        ⟨[], 2⟩).2.2.committed
      = if (J = JoinOp.leftAntiJoin ∨ J = JoinOp.leftOuterJoin ∨ J = JoinOp.fullOuterJoin)
            ∧ env.EvalConjuncts r none = true
        then [(r, none)] else [] := by
  have hf0 : nextProbeRow env [r] inp parts 0 ([] : List β) = FetchStep.advanced 1 r [] parts := by
    cases inp with
    | none => simp [nextProbeRow, henv]
    | some p => cases p <;> simp [nextProbeRow, henv]
  have hf1 : nextProbeRow env [r] inp parts 1 ([] : List β) = FetchStep.exhausted := by
    simp [nextProbeRow]
  simp only [ProcessProbeBatch]
  rw [probeLoop_none_eq]
  simp only [hf0]
  rw [probeLoop_nil_eq]
  by_cases hS : J = JoinOp.leftAntiJoin ∨ J = JoinOp.leftOuterJoin ∨ J = JoinOp.fullOuterJoin
  · by_cases hc : env.EvalConjuncts r none = true
    · simp [hS, hc, hf1]
    · simp [hS, hc, hf1]
  · simp [hS, hf1]


/-- C8: a row whose key hash evaluation yields absent is skipped: on the
build side it is never appended to any partition's build buffer (the loop
continues with the rest of the batch and the buffers unchanged); on the
probe side it is never routed, looked up or spilled (the partition array is
returned untouched) and counts as permanently unmatched, so the null-paired
emission rule of Left-Anti/Left-Outer/Full-Outer still fires for it. -/
theorem c8_absent_hash_skip :
    (∀ (β : Type) (f : β → Option Nat) (r : β) (rest : List β) (parts : Nat → Buffer β),
        f r = none → ProcessBuildBatch f (r :: rest) parts = ProcessBuildBatch f rest parts)
    ∧ (∀ (α β : Type) (J : JoinOp) (env : JoinEnv α β) (r : α)
        (inp : Option (Partition α β)) (parts : Nat → Partition α β),
        env.evalAndHashProbe r = none →
        (ProcessProbeBatch J env ⟨[r], 0, none, false, [], inp, parts, [], 0⟩ ⟨[], 2⟩).1
            = Status.ok
        ∧ (ProcessProbeBatch J env ⟨[r], 0, none, false, [], inp, parts, [], 0⟩
            ⟨[], 2⟩).2.1.hash_partitions = parts
        ∧ (ProcessProbeBatch J env ⟨[r], 0, none, false, [], inp, parts, [], 0⟩
            ⟨[], 2⟩).2.2.committed
          = if (J = JoinOp.leftAntiJoin ∨ J = JoinOp.leftOuterJoin ∨ J = JoinOp.fullOuterJoin)
                ∧ env.EvalConjuncts r none = true
            then [(r, none)] else []) := by
  constructor
  · intro β f r rest parts hf
    simp [ProcessBuildBatch, hf]
  · intro α β J env r inp parts henv
    exact absentRow_run J env r inp parts henv

def exAbsentEnv : JoinEnv Nat Nat :=
  ⟨fun p b => decide (p % 2 = b % 2), fun _ _ => true, fun _ => none⟩

theorem c8_absent_hash_skip_witness :
    ((fun _ : Nat => (none : Option Nat)) 7 = none
      ∧ ProcessBuildBatch (fun _ : Nat => (none : Option Nat)) [7] (fun _ => ⟨[], none⟩)
          = ProcessBuildBatch (fun _ : Nat => (none : Option Nat)) [] (fun _ => ⟨[], none⟩))
    ∧ (exAbsentEnv.evalAndHashProbe 7 = none
      ∧ (ProcessProbeBatch JoinOp.leftOuterJoin exAbsentEnv
          ⟨[7], 0, none, false, [], none, exParts, [], 0⟩ ⟨[], 2⟩).2.1.hash_partitions = exParts) :=
  ⟨⟨rfl, c8_absent_hash_skip.1 Nat (fun _ => none) 7 [] (fun _ => ⟨[], none⟩) rfl⟩,
   ⟨rfl, (c8_absent_hash_skip.2 Nat Nat JoinOp.leftOuterJoin exAbsentEnv 7 none exParts rfl).2.1⟩⟩


/-- A probe-side scenario whose second row routes to a spilled partition
with exhausted backing storage: partition 1 is resident with one build row,
partition 2 is spilled with a zero-capacity buffer. -/
def exErrParts : Nat → Partition Nat Nat := fun i =>
  if i = 1 then Partition.resident (fun _ => [11])
  else if i = 2 then Partition.spilled ⟨[], some 0⟩
  else Partition.closed

def exErrEnv : JoinEnv Nat Nat :=
  ⟨fun _ _ => true, fun _ _ => true, fun p => some (p * 2 ^ 28)⟩

def exErrState : ProbeState Nat Nat :=
  ⟨[1, 2], 0, none, false, [], none, exErrParts, [], 0⟩

/-- C9: a failed row append aborts the batch call immediately with the
stored error.  Build side: when `AppendRow` on the routed partition's
build buffer fails, `ProcessBuildBatch` returns the error at once, leaving
the buffers as they were and ignoring the rest of the batch.  Probe side:
on any error return of `ProcessProbeBatch` the output batch is returned
without `CommitRows`, so it is unchanged; in the concrete scenario the
call has already produced an output row (the loop's pending row list is
nonempty) when the spill append of the next probe row fails, and the
committed output stays empty — the earlier row never becomes visible. -/
theorem c9_append_failure_aborts :
    (∀ (β : Type) (f : β → Option Nat) (r : β) (rest : List β) (parts : Nat → Buffer β)
        (hash : Nat), f r = some hash →
        AppendRow (parts (partitionIdx NUM_PARTITIONING_BITS hash)) r = none →
        ProcessBuildBatch f (r :: rest) parts = (Status.error, parts))
    ∧ (∀ (α β : Type) (J : JoinOp) (env : JoinEnv α β) (st : ProbeState α β)
        (out : RowBatch (α × Option β)),
        (ProcessProbeBatch J env st out).1 = Status.error →
        (ProcessProbeBatch J env st out).2.2 = out)
    ∧ ((ProcessProbeBatch JoinOp.innerJoin exErrEnv exErrState ⟨[], 5⟩).1 = Status.error
      ∧ (ProcessProbeBatch JoinOp.innerJoin exErrEnv exErrState ⟨[], 5⟩).2.2.committed = []
      ∧ (probeLoop JoinOp.innerJoin exErrEnv 5 [1, 2] none exErrParts 0 none false [] [] [] 0).pending
          = [(1, some 11)]) := by
  refine ⟨?_, ?_, ?_⟩
  · intro β f r rest parts hash hf happ
    simp [ProcessBuildBatch, hf, happ]
  · intro α β J env st out h
    simp only [ProcessProbeBatch] at h ⊢
    split at h
    · simp at h
    · rename_i heq
      simp only [heq]
  · refine ⟨?_, ?_, ?_⟩ <;>
      simp [ProcessProbeBatch, probeLoop_cons_eq, probeLoop_nil_eq, probeLoop_none_eq,
        nextProbeRow, exErrEnv, exErrParts, exErrState, AppendRow, partitionIdx,
        NUM_PARTITIONING_BITS]

theorem c9_append_failure_aborts_witness :
    ((fun b : Nat => some (b * 2 ^ 28)) 2 = some (2 * 2 ^ 28)
      ∧ AppendRow ((fun _ : Nat => (⟨[], some 0⟩ : Buffer Nat))
          (partitionIdx NUM_PARTITIONING_BITS (2 * 2 ^ 28))) 2 = none
      ∧ ProcessBuildBatch (fun b : Nat => some (b * 2 ^ 28)) [2, 3]
          (fun _ => ⟨[], some 0⟩) = (Status.error, fun _ => ⟨[], some 0⟩))
    ∧ (ProcessProbeBatch JoinOp.innerJoin exErrEnv exErrState ⟨[], 5⟩).2.2 = ⟨[], 5⟩ := by
  have h1 := c9_append_failure_aborts.1 Nat (fun b => some (b * 2 ^ 28)) 2 [3]
    (fun _ => ⟨[], some 0⟩) (2 * 2 ^ 28) rfl (by simp [AppendRow])
  have h2 := c9_append_failure_aborts.2.1 Nat Nat JoinOp.innerJoin exErrEnv exErrState ⟨[], 5⟩
    c9_append_failure_aborts.2.2.1
  exact ⟨⟨rfl, by simp [AppendRow], h1⟩, h2⟩



theorem nilRow_pending {α β : Type} (J : JoinOp) (env : JoinEnv α β) (maxRows : Nat)
    (inp : Option (Partition α β)) (parts : Nat → Partition α β) (r : α)
    (hS : ¬(J = JoinOp.leftAntiJoin ∨ J = JoinOp.leftOuterJoin ∨ J = JoinOp.fullOuterJoin))
    (matched : Bool) (pending : List (α × Option β)) (numAdded : Nat) (marked : List β) :
    (probeLoop J env maxRows ([] : List α) inp parts 0 (some r) matched [] marked
        pending numAdded).pending = pending := by
  have hf : nextProbeRow env ([] : List α) inp parts 0 ([] : List β) = FetchStep.exhausted := by
    simp [nextProbeRow]
  rw [probeLoop_nil_eq]
  simp [hS, hf]

theorem chainScan_committed_mem {α β : Type} (J : JoinOp) (env : JoinEnv α β) (maxRows : Nat)
    (inp : Option (Partition α β)) (parts : Nat → Partition α β) (r : α)
    (hJ : J = JoinOp.innerJoin ∨ J = JoinOp.leftSemiJoin ∨ J = JoinOp.rightOuterJoin) :
    ∀ (chain : List β) (matched : Bool) (pending : List (α × Option β)) (numAdded : Nat)
      (marked : List β) (x : α × Option β),
      x ∈ (probeLoop J env maxRows ([] : List α) inp parts 0 (some r) matched chain marked
          pending numAdded).pending →
      x ∈ pending ∨ ∃ b, b ∈ chain ∧ env.EvalOtherJoinConjuncts r b = true ∧ x = (r, some b) := by
  have hS : ¬(J = JoinOp.leftAntiJoin ∨ J = JoinOp.leftOuterJoin ∨ J = JoinOp.fullOuterJoin) := by
    rcases hJ with h | h | h <;> subst h <;> simp
  have hJA : ¬J = JoinOp.leftAntiJoin := by
    rcases hJ with h | h | h <;> subst h <;> simp
  intro chain
  induction chain with
  | nil =>
    intro matched pending numAdded marked x hx
    rw [nilRow_pending J env maxRows inp parts r hS] at hx
    exact Or.inl hx
  | cons b rest ih =>
    intro matched pending numAdded marked x hx
    rw [probeLoop_cons_eq] at hx
    by_cases hp : env.EvalOtherJoinConjuncts r b = true
    · rw [if_pos hp, if_neg hJA] at hx
      by_cases hc : env.EvalConjuncts r (some b) = true
      · rw [if_pos hc] at hx
        by_cases hcap : numAdded + 1 = maxRows
        · rw [if_pos hcap] at hx
          simp at hx
          rcases hx with hx | hx
          · exact Or.inl hx
          · exact Or.inr ⟨b, by simp, hp, by simp [hx]⟩
        · rw [if_neg hcap] at hx
          by_cases hsemi : J = JoinOp.leftSemiJoin
          · rw [if_pos hsemi] at hx
            rw [nilRow_pending J env maxRows inp parts r hS] at hx
            simp at hx
            rcases hx with hx | hx
            · exact Or.inl hx
            · exact Or.inr ⟨b, by simp, hp, by simp [hx]⟩
          · rw [if_neg hsemi] at hx
            rcases ih true (pending ++ [(r, some b)]) (numAdded + 1)
              (if J = JoinOp.rightOuterJoin ∨ J = JoinOp.fullOuterJoin then marked ++ [b]
                else marked) x hx with hmem | ⟨b', hb', hpass', hx'⟩
            · simp at hmem
              rcases hmem with hm | hm
              · exact Or.inl hm
              · exact Or.inr ⟨b, by simp, hp, by simp [hm]⟩
            · exact Or.inr ⟨b', by simp [hb'], hpass', hx'⟩
      · rw [if_neg hc] at hx
        by_cases hsemi : J = JoinOp.leftSemiJoin
        · rw [if_pos hsemi] at hx
          rw [nilRow_pending J env maxRows inp parts r hS] at hx
          exact Or.inl hx
        · rw [if_neg hsemi] at hx
          rcases ih true pending numAdded
            (if J = JoinOp.rightOuterJoin ∨ J = JoinOp.fullOuterJoin then marked ++ [b]
              else marked) x hx with hmem | ⟨b', hb', hpass', hx'⟩
          · exact Or.inl hmem
          · exact Or.inr ⟨b', by simp [hb'], hpass', hx'⟩
    · rw [if_neg (by simp [hp])] at hx
      rcases ih matched pending numAdded marked x hx with hmem | ⟨b', hb', hpass', hx'⟩
      · exact Or.inl hmem
      · exact Or.inr ⟨b', by simp [hb'], hpass', hx'⟩

theorem chainScan_noMatch {α β : Type} (J : JoinOp) (env : JoinEnv α β) (maxRows : Nat)
    (inp : Option (Partition α β)) (parts : Nat → Partition α β) (r : α)
    (hS : ¬(J = JoinOp.leftAntiJoin ∨ J = JoinOp.leftOuterJoin ∨ J = JoinOp.fullOuterJoin)) :
    ∀ (chain : List β),
      (∀ b ∈ chain, env.EvalOtherJoinConjuncts r b = false) →
      ∀ (matched : Bool) (pending : List (α × Option β)) (numAdded : Nat) (marked : List β),
      (probeLoop J env maxRows ([] : List α) inp parts 0 (some r) matched chain marked
          pending numAdded).pending = pending := by
  intro chain
  induction chain with
  | nil =>
    intro _ matched pending numAdded marked
    exact nilRow_pending J env maxRows inp parts r hS matched pending numAdded marked
  | cons b rest ih =>
    intro hall matched pending numAdded marked
    rw [probeLoop_chain_miss _ _ _ _ _ _ _ _ _ _ _ _ _ _ (hall b (by simp))]
    exact ih (fun b' hb' => hall b' (by simp [hb'])) matched pending numAdded marked

/-- C10: for Inner, Left-Semi and Right-Outer joins, every output row
committed by `ProcessProbeBatch` pairs the probe row with a concrete
build row of its bucket chain that passed the join conjuncts; a probe row
with no passing candidate commits nothing; a probe row whose hash is
absent commits nothing; and a probe row routed to a closed partition
commits nothing and leaves the partition array untouched — a null-extended
output row is never emitted for these kinds. -/
theorem c10_no_null_extended_rows {α β : Type} (J : JoinOp) (env : JoinEnv α β)
    (hJ : J = JoinOp.innerJoin ∨ J = JoinOp.leftSemiJoin ∨ J = JoinOp.rightOuterJoin) :
    (∀ (r : α) (chain : List β) (inp : Option (Partition α β))
        (parts : Nat → Partition α β) (c : Nat) (x : α × Option β),
        x ∈ (ProcessProbeBatch J env ⟨[], 0, some r, false, chain, inp, parts, [], 0⟩
            ⟨[], c⟩).2.2.committed →
        ∃ b, b ∈ chain ∧ env.EvalOtherJoinConjuncts r b = true ∧ x = (r, some b))
    ∧ (∀ (r : α) (chain : List β) (inp : Option (Partition α β))
        (parts : Nat → Partition α β) (c : Nat),
        (∀ b ∈ chain, env.EvalOtherJoinConjuncts r b = false) →
        (ProcessProbeBatch J env ⟨[], 0, some r, false, chain, inp, parts, [], 0⟩
            ⟨[], c⟩).2.2.committed = [])
    ∧ (∀ (r : α) (inp : Option (Partition α β)) (parts : Nat → Partition α β),
        env.evalAndHashProbe r = none →
        (ProcessProbeBatch J env ⟨[r], 0, none, false, [], inp, parts, [], 0⟩
            ⟨[], 2⟩).2.2.committed = [])
    ∧ (∀ (r : α) (hash : Nat) (parts : Nat → Partition α β),
        env.evalAndHashProbe r = some hash →
        parts (partitionIdx NUM_PARTITIONING_BITS hash) = Partition.closed →
        (ProcessProbeBatch J env ⟨[r], 0, none, false, [], none, parts, [], 0⟩
            ⟨[], 2⟩).2.2.committed = []
        ∧ (ProcessProbeBatch J env ⟨[r], 0, none, false, [], none, parts, [], 0⟩
            ⟨[], 2⟩).2.1.hash_partitions = parts) := by
  have hS : ¬(J = JoinOp.leftAntiJoin ∨ J = JoinOp.leftOuterJoin ∨ J = JoinOp.fullOuterJoin) := by
    rcases hJ with h | h | h <;> subst h <;> simp
  refine ⟨?_, ?_, ?_, ?_⟩
  · intro r chain inp parts c x hx
    simp only [ProcessProbeBatch, List.length_nil, Nat.sub_zero] at hx
    split at hx
    · simp only [List.nil_append] at hx
      rcases chainScan_committed_mem J env c inp parts r hJ chain false [] 0 [] x hx with
        hmem | hb
      · simp at hmem
      · exact hb
    · simp at hx
  · intro r chain inp parts c hall
    simp only [ProcessProbeBatch, List.length_nil, Nat.sub_zero]
    split
    · simp only [List.nil_append]
      exact chainScan_noMatch J env c inp parts r hS chain hall false [] 0 []
    · rfl
  · intro r inp parts henv
    have h := (absentRow_run J env r inp parts henv).2.2
    rw [h]
    rcases hJ with h' | h' | h' <;> subst h' <;> simp
  · intro r hash parts hhash hclosed
    have hf0 : nextProbeRow env [r] none parts 0 ([] : List β)
        = FetchStep.advanced 1 r [] parts := by
      simp [nextProbeRow, hhash, hclosed]
    have hf1 : nextProbeRow env [r] none parts 1 ([] : List β) = FetchStep.exhausted := by
      simp [nextProbeRow]
    constructor
    · simp only [ProcessProbeBatch]
      rw [probeLoop_none_eq]
      simp only [hf0]
      rw [probeLoop_nil_eq]
      simp [hS, hf1]
    · simp only [ProcessProbeBatch]
      rw [probeLoop_none_eq]
      simp only [hf0]
      rw [probeLoop_nil_eq]
      simp [hS, hf1]

theorem c10_no_null_extended_rows_witness :
    ∃ b, b ∈ [10, 11, 12] ∧ exEnv.EvalOtherJoinConjuncts 1 b = true
      ∧ ((1 : Nat), (some 11 : Option Nat)) = (1, some b) := by
  refine (c10_no_null_extended_rows JoinOp.innerJoin exEnv (Or.inl rfl)).1
    1 [10, 11, 12] none exParts 5 (1, some 11) ?_
  simp [ProcessProbeBatch, probeLoop_cons_eq, probeLoop_nil_eq, probeLoop_none_eq,
    nextProbeRow, exEnv, exParts]

end PHJ
